import Mathlib

/-!
Verification of the Newton–Raphson diode solver
(`Task4_Newton_Raphson_Iteration.py`).

The script solves `f(Vd) = Vs - R*Is*(exp(Vd/(n*Vt)) - 1) - Vd = 0` by
Newton–Raphson iteration, recording one row per iteration
(`Iteration`, `Vd (V)`, `Change (V)`) in `results` and every iterate
(seed included) in `Vd_values`, stopping as soon as
`abs(Vd_new - Vd) < tolerance` or after `max_iter` passes.

The iteration engine is embedded generically over a linear ordered field
(the Python floats are idealised as real numbers); the circuit residual,
its derivative and the canonical parameters are embedded over `ℝ`.
-/

namespace NewtonDiode

/-- One row of the iteration table: the dict
`{"Iteration": i + 1, "Vd (V)": Vd_new, "Change (V)": abs(Vd_new - Vd)}`
appended to `results` each pass. -/
structure IterRecord (α : Type*) where
  iteration : ℕ
  value : α
  change : α
  deriving DecidableEq

variable {α : Type*} [LinearOrderedField α]

/-- The whole mutable state of the script's loop: the working variable `Vd`,
the `results` list, the `Vd_values` list, and whether the loop has exited
through the `break` (convergence). -/
structure SolveState (α : Type*) where
  x : α
  results : List (IterRecord α)
  xs : List α
  converged : Bool
  deriving DecidableEq

/-- One body pass of the `for` loop before the `break` test:
compute `Vd_new = Vd - f(Vd)/df(Vd)`, append the row
`(i+1, Vd_new, |Vd_new - Vd|)` to `results`, append `Vd_new` to
`Vd_values`, and set `Vd := Vd_new`. -/
def newtonStep (f fp : α → α) (i : ℕ) (s : SolveState α) : SolveState α :=
  let xnew := s.x - f s.x / fp s.x
  { x := xnew
    results := s.results ++ [⟨i + 1, xnew, |xnew - s.x|⟩]
    xs := s.xs ++ [xnew]
    converged := s.converged }

/-- The `for i in range(max_iter)` loop with the `break` on
`abs(Vd_new - Vd) < tolerance`; `fuel` is the number of passes left and
`i` the 0-based loop counter. -/
def solveGo (f fp : α → α) (tol : α) : ℕ → ℕ → SolveState α → SolveState α
  | 0, _, s => s
  | fuel + 1, i, s =>
    if |(s.x - f s.x / fp s.x) - s.x| < tol then
      { newtonStep f fp i s with converged := true }
    else solveGo f fp tol fuel (i + 1) (newtonStep f fp i s)

/-- The whole solve: `Vd = x0`, `results = []`, `Vd_values = [x0]`, then the
loop. -/
def solve (f fp : α → α) (x0 tol : α) (maxIter : ℕ) : SolveState α :=
  solveGo f fp tol maxIter 0 ⟨x0, [], [x0], false⟩

/-- The iteration table row at 0-based position `j` (defaulting to a dummy
row out of range). -/
def recAt (s : SolveState α) (j : ℕ) : IterRecord α :=
  s.results.getD j ⟨0, 0, 0⟩

/-- The raw iterate at 0-based position `j` of `Vd_values`. -/
def xsAt (s : SolveState α) (j : ℕ) : α :=
  s.xs.getD j 0

/-- A guarded variant of the loop that faults (returns `none`) exactly where
the Python run would raise `ZeroDivisionError`: when `df` evaluates to `0`
at the iterate entering a pass. Everywhere else it follows `solveGo`. -/
def solveGoE (f fp : α → α) (tol : α) : ℕ → ℕ → SolveState α → Option (SolveState α)
  | 0, _, s => some s
  | fuel + 1, i, s =>
    if fp s.x = 0 then none
    else if |(s.x - f s.x / fp s.x) - s.x| < tol then
      some { newtonStep f fp i s with converged := true }
    else solveGoE f fp tol fuel (i + 1) (newtonStep f fp i s)

/-- The guarded whole solve. -/
def solveE (f fp : α → α) (x0 tol : α) (maxIter : ℕ) : Option (SolveState α) :=
  solveGoE f fp tol maxIter 0 ⟨x0, [], [x0], false⟩

/-- The iterates at which `f` and `fp` are evaluated during a run of the
loop starting from working value `x` with `fuel` passes left. -/
def evalPts (f fp : α → α) (tol : α) : ℕ → α → List α
  | 0, _ => []
  | fuel + 1, x =>
    if |(x - f x / fp x) - x| < tol then [x]
    else x :: evalPts f fp tol fuel (x - f x / fp x)

/-- The structural invariant tying `results`, `Vd_values` and the working
variable together. -/
def Inv (f fp : α → α) (x0 : α) (s : SolveState α) : Prop :=
  s.xs.length = s.results.length + 1 ∧
  xsAt s 0 = x0 ∧
  s.x = xsAt s s.results.length ∧
  ∀ j, j < s.results.length →
    recAt s j = ⟨j + 1, xsAt s (j + 1), |xsAt s (j + 1) - xsAt s j|⟩ ∧
    xsAt s (j + 1) = xsAt s j - f (xsAt s j) / fp (xsAt s j)

namespace Circuit

/-- `Vs = 5.0`, supply voltage. -/
def Vs : ℝ := 5.0

/-- `R = 1000.0`, series resistance. -/
def R : ℝ := 1000.0

/-- `Is = 1e-12`, diode saturation current. -/
def Is : ℝ := 1e-12

/-- `n = 1.0`, ideality factor. -/
def n : ℝ := 1.0

/-- `Vt = 0.0259`, thermal voltage. -/
def Vt : ℝ := 0.0259

/-- `def f(Vd): return Vs - R * Is * (math.exp(Vd / (n * Vt)) - 1) - Vd`. -/
noncomputable def f (Vd : ℝ) : ℝ :=
  Vs - R * Is * (Real.exp (Vd / (n * Vt)) - 1) - Vd

/-- `def df(Vd): return -R * Is * (math.exp(Vd / (n * Vt)) / (n * Vt)) - 1`. -/
noncomputable def df (Vd : ℝ) : ℝ :=
  -R * Is * (Real.exp (Vd / (n * Vt)) / (n * Vt)) - 1

/-- `Vd = 0.7`, the initial guess. -/
def x0 : ℝ := 0.7

/-- `tolerance = 1e-6`. -/
def tolerance : ℝ := 1e-6

/-- `max_iter = 20`. -/
def maxIter : ℕ := 20

/-- The canonical solve the script performs. -/
noncomputable def run : SolveState ℝ :=
  solve f df x0 tolerance maxIter

/-- `I = Is * (math.exp(Vd / (n * Vt)) - 1)` computed after the loop at the
final `Vd`. -/
noncomputable def I : ℝ :=
  Is * (Real.exp (run.x / (n * Vt)) - 1)

end Circuit

/-- The sequence of Newton iterates of the canonical run:
`xseq 0 = 0.7` and `xseq (k+1) = xseq k - f(xseq k)/df(xseq k)`. -/
noncomputable def xseq : ℕ → ℝ
  | 0 => Circuit.x0
  | k + 1 => xseq k - Circuit.f (xseq k) / Circuit.df (xseq k)

/-- The final state of the canonical run, written out. -/
noncomputable def canonState : SolveState ℝ :=
  ⟨xseq 9, [⟨1, xseq 1, |xseq 1 - xseq 0|⟩,
      ⟨2, xseq 2, |xseq 2 - xseq 1|⟩,
      ⟨3, xseq 3, |xseq 3 - xseq 2|⟩,
      ⟨4, xseq 4, |xseq 4 - xseq 3|⟩,
      ⟨5, xseq 5, |xseq 5 - xseq 4|⟩,
      ⟨6, xseq 6, |xseq 6 - xseq 5|⟩,
      ⟨7, xseq 7, |xseq 7 - xseq 6|⟩,
      ⟨8, xseq 8, |xseq 8 - xseq 7|⟩,
      ⟨9, xseq 9, |xseq 9 - xseq 8|⟩],
    [xseq 0, xseq 1, xseq 2, xseq 3, xseq 4, xseq 5, xseq 6, xseq 7, xseq 8, xseq 9], true⟩

theorem getD_append_lt {β : Type*} (L L' : List β) (d : β) (j : ℕ) (hj : j < L.length) :
    (L ++ L').getD j d = L.getD j d := by
  rw [List.getD_eq_getElem?_getD, List.getD_eq_getElem?_getD,
    List.getElem?_append_left hj]

theorem getD_concat_length {β : Type*} (L : List β) (r d : β) :
    (L ++ [r]).getD L.length d = r := by
  rw [List.getD_eq_getElem?_getD, List.getElem?_concat_length]
  rfl

theorem newtonStep_inv {f fp : α → α} {x0 : α} {s : SolveState α} (i : ℕ)
    (h : Inv f fp x0 s) (hi : i = s.results.length) :
    Inv f fp x0 (newtonStep f fp i s) := by
  obtain ⟨hlen, h0, hx, hrec⟩ := h
  have hxlt : s.results.length < s.xs.length := by omega
  refine ⟨by simp [newtonStep, hlen], ?_, ?_, ?_⟩
  · simp only [newtonStep, xsAt]
    rw [getD_append_lt _ _ _ 0 (by omega)]
    exact h0
  · simp only [newtonStep, xsAt, List.length_append, List.length_cons, List.length_nil]
    rw [show s.results.length + (0 + 1) = s.xs.length by omega]
    exact (getD_concat_length s.xs _ 0).symm
  · intro j hj
    have hj' : j < s.results.length + 1 := by
      simpa [newtonStep] using hj
    simp only [newtonStep, xsAt, recAt]
    rcases Nat.lt_or_ge j s.results.length with hlt | hge
    · obtain ⟨hr1, hr2⟩ := hrec j hlt
      simp only [recAt, xsAt] at hr1 hr2
      rw [getD_append_lt _ _ _ j hlt,
        getD_append_lt _ _ _ (j + 1) (by omega),
        getD_append_lt _ _ _ j (by omega)]
      exact ⟨hr1, hr2⟩
    · have hje : j = s.results.length := by omega
      have e0 : (s.xs ++ [s.x - f s.x / fp s.x]).getD j 0 = s.x := by
        rw [getD_append_lt _ _ _ j (by omega)]
        simp only [xsAt] at hx
        rw [hje]
        exact hx.symm
      have e1 : (s.xs ++ [s.x - f s.x / fp s.x]).getD (j + 1) 0
          = s.x - f s.x / fp s.x := by
        rw [show j + 1 = s.xs.length by omega, getD_concat_length]
      have e2 : (s.results ++ [(⟨i + 1, s.x - f s.x / fp s.x,
          |s.x - f s.x / fp s.x - s.x|⟩ : IterRecord α)]).getD j ⟨0, 0, 0⟩
          = ⟨i + 1, s.x - f s.x / fp s.x, |s.x - f s.x / fp s.x - s.x|⟩ := by
        rw [hje, getD_concat_length]
      rw [e0, e1, e2, hje, ← hi]
      exact ⟨rfl, rfl⟩

theorem solveGo_inv {f fp : α → α} {x0 tol : α} :
    ∀ (fuel i : ℕ) (s : SolveState α), Inv f fp x0 s → i = s.results.length →
      Inv f fp x0 (solveGo f fp tol fuel i s) := by
  intro fuel
  induction fuel with
  | zero => intro i s h _; exact h
  | succ fuel ih =>
    intro i s h hi
    rw [solveGo]
    by_cases hlt : |(s.x - f s.x / fp s.x) - s.x| < tol
    · rw [if_pos hlt]
      exact newtonStep_inv i h hi
    · rw [if_neg hlt]
      refine ih (i + 1) (newtonStep f fp i s) (newtonStep_inv i h hi) ?_
      simp [newtonStep, hi]

theorem solve_inv (f fp : α → α) (x0 tol : α) (m : ℕ) :
    Inv f fp x0 (solve f fp x0 tol m) := by
  refine solveGo_inv m 0 _ ?_ rfl
  refine ⟨rfl, rfl, rfl, ?_⟩
  intro j hj
  simp at hj

theorem solveGo_len (f fp : α → α) (tol : α) :
    ∀ (fuel i : ℕ) (s : SolveState α),
      (solveGo f fp tol fuel i s).results.length ≤ s.results.length + fuel := by
  intro fuel
  induction fuel with
  | zero => intro i s; simp [solveGo]
  | succ fuel ih =>
    intro i s
    rw [solveGo]
    by_cases hlt : |(s.x - f s.x / fp s.x) - s.x| < tol
    · rw [if_pos hlt]
      simp only [newtonStep, List.length_append, List.length_cons, List.length_nil]
      omega
    · rw [if_neg hlt]
      have h1 := ih (i + 1) (newtonStep f fp i s)
      have h2 : (newtonStep f fp i s).results.length = s.results.length + 1 := by
        simp [newtonStep]
      omega

theorem recAt_newtonStep_lt {f fp : α → α} (i : ℕ) (s : SolveState α) (j : ℕ)
    (hj : j < s.results.length) :
    recAt (newtonStep f fp i s) j = recAt s j := by
  simp only [recAt, newtonStep]
  exact getD_append_lt _ _ _ j hj

theorem recAt_newtonStep_last {f fp : α → α} (i : ℕ) (s : SolveState α) :
    recAt (newtonStep f fp i s) s.results.length
      = ⟨i + 1, s.x - f s.x / fp s.x, |s.x - f s.x / fp s.x - s.x|⟩ := by
  simp only [recAt, newtonStep]
  exact getD_concat_length _ _ _

theorem newtonStep_len {f fp : α → α} (i : ℕ) (s : SolveState α) :
    (newtonStep f fp i s).results.length = s.results.length + 1 := by
  simp [newtonStep]

theorem solveGo_xs_extend (f fp : α → α) (tol : α) :
    ∀ (fuel i : ℕ) (s : SolveState α),
      ∃ ts, (solveGo f fp tol fuel i s).xs = s.xs ++ ts := by
  intro fuel
  induction fuel with
  | zero => intro i s; exact ⟨[], by simp [solveGo]⟩
  | succ fuel ih =>
    intro i s
    rw [solveGo]
    by_cases hlt : |(s.x - f s.x / fp s.x) - s.x| < tol
    · rw [if_pos hlt]
      exact ⟨[s.x - f s.x / fp s.x], rfl⟩
    · rw [if_neg hlt]
      obtain ⟨ts, hts⟩ := ih (i + 1) (newtonStep f fp i s)
      refine ⟨(s.x - f s.x / fp s.x) :: ts, ?_⟩
      rw [hts]
      simp [newtonStep]

theorem solveGo_stop (f fp : α → α) (tol : α) :
    ∀ (fuel i : ℕ) (s : SolveState α),
      s.converged = false →
      (∀ j, j < s.results.length → tol ≤ (recAt s j).change) →
      (∀ j, j + 1 < (solveGo f fp tol fuel i s).results.length →
          tol ≤ (recAt (solveGo f fp tol fuel i s) j).change) ∧
      ((solveGo f fp tol fuel i s).converged = true ↔
        1 ≤ (solveGo f fp tol fuel i s).results.length ∧
          (recAt (solveGo f fp tol fuel i s)
            ((solveGo f fp tol fuel i s).results.length - 1)).change < tol) := by
  intro fuel
  induction fuel with
  | zero =>
    intro i s hconv hall
    rw [solveGo]
    refine ⟨fun j hj => hall j (by omega), ?_⟩
    constructor
    · intro hc
      rw [hconv] at hc
      exact absurd hc (by simp)
    · rintro ⟨h1, h2⟩
      exact absurd h2 (not_lt.mpr (hall _ (by omega)))
  | succ fuel ih =>
    intro i s hconv hall
    rw [solveGo]
    by_cases hlt : |(s.x - f s.x / fp s.x) - s.x| < tol
    · rw [if_pos hlt]
      have hlen : ({ newtonStep f fp i s with converged := true } : SolveState α).results.length
          = s.results.length + 1 := newtonStep_len i s
      have hrec : ∀ j, recAt ({ newtonStep f fp i s with converged := true } : SolveState α) j
          = recAt (newtonStep f fp i s) j := fun j => rfl
      constructor
      · intro j hj
        rw [hlen] at hj
        rw [hrec, recAt_newtonStep_lt i s j (by omega)]
        exact hall j (by omega)
      · simp only [hlen, hrec]
        constructor
        · intro _
          refine ⟨by omega, ?_⟩
          rw [show s.results.length + 1 - 1 = s.results.length by omega,
            recAt_newtonStep_last]
          exact hlt
        · intro _
          trivial
    · rw [if_neg hlt]
      refine ih (i + 1) (newtonStep f fp i s) (by simp [newtonStep, hconv]) ?_
      intro j hj
      rw [newtonStep_len] at hj
      rcases Nat.lt_or_ge j s.results.length with h | h
      · rw [recAt_newtonStep_lt i s j h]
        exact hall j h
      · rw [show j = s.results.length by omega, recAt_newtonStep_last]
        exact not_lt.mp hlt

theorem solveGoE_some_iff (f fp : α → α) (tol : α) :
    ∀ (fuel i : ℕ) (s : SolveState α),
      solveGoE f fp tol fuel i s = some (solveGo f fp tol fuel i s) ↔
        ∀ y ∈ evalPts f fp tol fuel s.x, fp y ≠ 0 := by
  intro fuel
  induction fuel with
  | zero =>
    intro i s
    simp [solveGoE, solveGo, evalPts]
  | succ fuel ih =>
    intro i s
    rw [solveGoE, solveGo, evalPts]
    by_cases hz : fp s.x = 0
    · rw [if_pos hz]
      have hmem : s.x ∈ (if |(s.x - f s.x / fp s.x) - s.x| < tol then [s.x]
          else s.x :: evalPts f fp tol fuel (s.x - f s.x / fp s.x)) := by
        by_cases hlt : |(s.x - f s.x / fp s.x) - s.x| < tol
        · rw [if_pos hlt]
          exact List.mem_singleton.mpr rfl
        · rw [if_neg hlt]
          exact List.mem_cons_self _ _
      constructor
      · intro h
        exact absurd h (by simp)
      · intro h
        exact absurd hz (h s.x hmem)
    · rw [if_neg hz]
      by_cases hlt : |(s.x - f s.x / fp s.x) - s.x| < tol
      · rw [if_pos hlt, if_pos hlt, if_pos hlt]
        simp [hz]
      · rw [if_neg hlt, if_neg hlt, if_neg hlt]
        rw [ih (i + 1) (newtonStep f fp i s)]
        simp only [List.mem_cons, newtonStep]
        constructor
        · intro h y hy
          rcases hy with hy | hy
          · rw [hy]; exact hz
          · exact h y hy
        · intro h y hy
          exact h y (Or.inr hy)

theorem solveGo_dropLast_evalPts (f fp : α → α) (tol : α) :
    ∀ (fuel i : ℕ) (s : SolveState α), s.xs.getLast? = some s.x →
      (solveGo f fp tol fuel i s).xs.dropLast
        = s.xs.dropLast ++ evalPts f fp tol fuel s.x := by
  intro fuel
  induction fuel with
  | zero =>
    intro i s _
    simp [solveGo, evalPts]
  | succ fuel ih =>
    intro i s hlast
    have hsx : s.xs.dropLast ++ [s.x] = s.xs := by
      obtain ⟨L, hL⟩ : ∃ L, s.xs = L ++ [s.x] := by
        rcases List.eq_nil_or_concat s.xs with h | ⟨L, b, hLb⟩
        · rw [h] at hlast; simp at hlast
        · rw [List.concat_eq_append] at hLb
          refine ⟨L, ?_⟩
          rw [hLb] at hlast ⊢
          rw [List.getLast?_concat] at hlast
          obtain rfl : b = s.x := by injection hlast
          rfl
      rw [hL, List.dropLast_concat]
    rw [solveGo, evalPts]
    by_cases hlt : |(s.x - f s.x / fp s.x) - s.x| < tol
    · rw [if_pos hlt, if_pos hlt]
      show (s.xs ++ [s.x - f s.x / fp s.x]).dropLast = _
      rw [List.dropLast_concat]
      exact hsx.symm
    · rw [if_neg hlt, if_neg hlt]
      have hstep : (newtonStep f fp i s).xs.getLast? = some (newtonStep f fp i s).x := by
        simp [newtonStep, List.getLast?_concat]
      rw [ih (i + 1) (newtonStep f fp i s) hstep]
      simp only [newtonStep, List.dropLast_concat]
      rw [← hsx]
      simp

theorem solveGo_tol_mono (f fp : α → α) (t1 t2 : α) (h12 : t2 ≤ t1) :
    ∀ (fuel i : ℕ) (s : SolveState α),
      ∃ ts, (solveGo f fp t1 fuel i s).xs ++ ts = (solveGo f fp t2 fuel i s).xs := by
  intro fuel
  induction fuel with
  | zero => intro i s; exact ⟨[], by simp [solveGo]⟩
  | succ fuel ih =>
    intro i s
    rw [solveGo, solveGo]
    by_cases h2 : |(s.x - f s.x / fp s.x) - s.x| < t2
    · rw [if_pos h2, if_pos (lt_of_lt_of_le h2 h12)]
      exact ⟨[], by simp⟩
    · rw [if_neg h2]
      by_cases h1 : |(s.x - f s.x / fp s.x) - s.x| < t1
      · rw [if_pos h1]
        obtain ⟨ts, hts⟩ := solveGo_xs_extend f fp t2 fuel (i + 1) (newtonStep f fp i s)
        refine ⟨ts, ?_⟩
        rw [hts]
      · rw [if_neg h1]
        exact ih (i + 1) (newtonStep f fp i s)

theorem solveGo_succ (f fp : α → α) (tol : α) (fuel i : ℕ) (s : SolveState α) :
    solveGo f fp tol (fuel + 1) i s =
      if |(s.x - f s.x / fp s.x) - s.x| < tol then
        { newtonStep f fp i s with converged := true }
      else solveGo f fp tol fuel (i + 1) (newtonStep f fp i s) := rfl

/-- A tiny concrete run over `ℚ` used by the witness theorems:
`f = 0`, `f_prime = 1`, `x0 = 3`, `tolerance = 1`, one allowed pass;
the single Newton step leaves the iterate at `3` and converges. -/
theorem small_run :
    solve (fun _ : ℚ => 0) (fun _ => 1) 3 1 1
      = ⟨3, [⟨1, 3, 0⟩], [3, 3], true⟩ := by
  rw [solve, show (1 : ℕ) = 0 + 1 from rfl, solveGo_succ]
  norm_num [newtonStep]



/-- C2: on every loop pass with current estimate x, the solver computes
`x_new = x - f(x)/f_prime(x)`, appends exactly one Iteration Record
`(i, x_new, |x_new - x|)` with 1-based index `i` to the trace, appends
`x_new` to the raw-value trace (seeded with `x0`), and sets `x` to `x_new`:
stated over the whole run, row `j` (0-based) holds the 1-based index `j+1`,
the iterate `xs[j+1]`, and `|xs[j+1] - xs[j]|`, with
`xs[j+1] = xs[j] - f(xs[j])/f_prime(xs[j])` and `xs[0] = x0`. -/
theorem loop_pass_bookkeeping (f fp : α → α) (x0 tol : α) (m j : ℕ)
    (hj : j < (solve f fp x0 tol m).results.length) :
    xsAt (solve f fp x0 tol m) 0 = x0 ∧
    recAt (solve f fp x0 tol m) j
      = ⟨j + 1, xsAt (solve f fp x0 tol m) (j + 1),
          |xsAt (solve f fp x0 tol m) (j + 1) - xsAt (solve f fp x0 tol m) j|⟩ ∧
    xsAt (solve f fp x0 tol m) (j + 1)
      = xsAt (solve f fp x0 tol m) j
          - f (xsAt (solve f fp x0 tol m) j) / fp (xsAt (solve f fp x0 tol m) j) := by
  obtain ⟨hlen, h0, hx, hrec⟩ := solve_inv f fp x0 tol m
  exact ⟨h0, (hrec j hj).1, (hrec j hj).2⟩

/-- Witness for C2 at a concrete instance over `ℚ`. -/
theorem loop_pass_bookkeeping_witness :
    xsAt (solve (fun _ : ℚ => 0) (fun _ => 1) 3 1 1) 0 = 3 ∧
    recAt (solve (fun _ : ℚ => 0) (fun _ => 1) 3 1 1) 0
      = ⟨1, xsAt (solve (fun _ : ℚ => 0) (fun _ => 1) 3 1 1) 1,
          |xsAt (solve (fun _ : ℚ => 0) (fun _ => 1) 3 1 1) 1
            - xsAt (solve (fun _ : ℚ => 0) (fun _ => 1) 3 1 1) 0|⟩ ∧
    xsAt (solve (fun _ : ℚ => 0) (fun _ => 1) 3 1 1) 1
      = xsAt (solve (fun _ : ℚ => 0) (fun _ => 1) 3 1 1) 0 - 0 / 1 :=
  loop_pass_bookkeeping (fun _ : ℚ => 0) (fun _ => 1) 3 1 1 0 (by simp [small_run])

/-- C3: the solver stops at the first iteration whose delta is strictly
below the tolerance (that pass counts as the last, and marks the result
converged); every non-final row's change is `≥ tol`, convergence holds
exactly when the last row's change is `< tol`, and when the first step's
delta is already below the tolerance (and at least one pass is allowed)
the solve converges after exactly one iteration. -/
theorem stops_at_first_tolerance_hit (f fp : α → α) (x0 tol : α) (m : ℕ) :
    (∀ j, j + 1 < (solve f fp x0 tol m).results.length →
        tol ≤ (recAt (solve f fp x0 tol m) j).change) ∧
    ((solve f fp x0 tol m).converged = true ↔
      1 ≤ (solve f fp x0 tol m).results.length ∧
        (recAt (solve f fp x0 tol m)
          ((solve f fp x0 tol m).results.length - 1)).change < tol) ∧
    (1 ≤ m → |(x0 - f x0 / fp x0) - x0| < tol →
      (solve f fp x0 tol m).converged = true ∧
        (solve f fp x0 tol m).results.length = 1) := by
  obtain ⟨h1, h2⟩ := solveGo_stop f fp tol m 0 (⟨x0, [], [x0], false⟩ : SolveState α) rfl
    (by intro j hj; simp at hj)
  refine ⟨h1, h2, ?_⟩
  intro hm hd
  cases m with
  | zero => omega
  | succ k =>
    rw [solve, solveGo]
    rw [if_pos hd]
    exact ⟨rfl, by simp [newtonStep]⟩

/-- Witness for C3 at a concrete instance over `ℚ`. -/
theorem stops_at_first_tolerance_hit_witness :
    (solve (fun _ : ℚ => 0) (fun _ => 1) 3 1 1).converged = true ∧
    (solve (fun _ : ℚ => 0) (fun _ => 1) 3 1 1).results.length = 1 :=
  (stops_at_first_tolerance_hit (fun _ : ℚ => 0) (fun _ => 1) 3 1 1).2.2
    (by norm_num) (by norm_num)

/-- C4: the raw-value trace is always one longer than the Iteration Trace
(it includes the seed), and the trace length never exceeds
`max_iterations` (the loop terminates after at most that many passes). -/
theorem trace_lengths (f fp : α → α) (x0 tol : α) (m : ℕ) :
    (solve f fp x0 tol m).xs.length = (solve f fp x0 tol m).results.length + 1 ∧
    (solve f fp x0 tol m).results.length ≤ m := by
  refine ⟨(solve_inv f fp x0 tol m).1, ?_⟩
  have h := solveGo_len f fp tol m 0 (⟨x0, [], [x0], false⟩ : SolveState α)
  simpa [solve] using h

/-- C5: the final estimate is the most recently computed iterate: it equals
the value field of the last Iteration Record when the trace is non-empty,
and the initial guess `x0` when the trace is empty. -/
theorem final_estimate (f fp : α → α) (x0 tol : α) (m : ℕ) :
    ((solve f fp x0 tol m).results = [] → (solve f fp x0 tol m).x = x0) ∧
    (∀ r, (solve f fp x0 tol m).results.getLast? = some r →
      (solve f fp x0 tol m).x = r.value) := by
  obtain ⟨hlen, h0, hx, hrec⟩ := solve_inv f fp x0 tol m
  constructor
  · intro hnil
    have hzero : (solve f fp x0 tol m).results.length = 0 := by rw [hnil]; rfl
    rw [hzero] at hx
    rw [hx]
    exact h0
  · intro r hr
    have hlen1 : 1 ≤ (solve f fp x0 tol m).results.length := by
      cases hres : (solve f fp x0 tol m).results with
      | nil => rw [hres] at hr; simp at hr
      | cons a l => simp
    have hr' : recAt (solve f fp x0 tol m) ((solve f fp x0 tol m).results.length - 1) = r := by
      rw [recAt, List.getD_eq_getElem?_getD, ← List.getLast?_eq_getElem?, hr]
      rfl
    have hv := (hrec ((solve f fp x0 tol m).results.length - 1) (by omega)).1
    rw [hr'] at hv
    rw [hx, show (solve f fp x0 tol m).results.length
      = ((solve f fp x0 tol m).results.length - 1) + 1 by omega, hv]

/-- Witness for C5 at a concrete instance over `ℚ`. -/
theorem final_estimate_witness :
    (solve (fun _ : ℚ => 0) (fun _ => 1) 3 1 1).x
      = (⟨1, 3, 0⟩ : IterRecord ℚ).value :=
  (final_estimate (fun _ : ℚ => 0) (fun _ => 1) 3 1 1).2 ⟨1, 3, 0⟩ (by simp [small_run])

/-- C6: with `max_iterations = 0` the solve performs no Newton steps: empty
Iteration Trace, raw trace holding only the seed, final estimate `x0`, and
`converged = false`. -/
theorem zero_max_iterations (f fp : α → α) (x0 tol : α) :
    solve f fp x0 tol 0 = ⟨x0, [], [x0], false⟩ := rfl

/-- C8: the engine has no guard on the derivative's value: the faulting
embedding (which raises exactly where Python would divide by zero)
returns the unguarded result precisely when `f_prime` is nonzero at every
iterate it is evaluated at (all raw-trace entries but the last); in
particular a zero derivative at such an iterate makes the guarded run
fault, and nonzero derivatives there make every division well-defined. -/
theorem derivative_zero_guard (f fp : α → α) (x0 tol : α) (m : ℕ) :
    solveE f fp x0 tol m = some (solve f fp x0 tol m) ↔
      ∀ y ∈ (solve f fp x0 tol m).xs.dropLast, fp y ≠ 0 := by
  have hA := solveGoE_some_iff f fp tol m 0 (⟨x0, [], [x0], false⟩ : SolveState α)
  have hB := solveGo_dropLast_evalPts f fp tol m 0
    (⟨x0, [], [x0], false⟩ : SolveState α) rfl
  rw [solve, solveE, hB]
  simpa using hA

/-- Witness for C8 at a concrete instance over `ℚ`. -/
theorem derivative_zero_guard_witness :
    solveE (fun _ : ℚ => 0) (fun _ => 1) 3 1 1
      = some (solve (fun _ : ℚ => 0) (fun _ => 1) 3 1 1) :=
  (derivative_zero_guard (fun _ : ℚ => 0) (fun _ => 1) 3 1 1).mpr (by simp [small_run])

/-- C10: the stopping rule is monotone in the tolerance: with the same
`f`, `f_prime`, `x0` and `max_iterations`, and tolerances `t1 ≥ t2 > 0`,
the raw-value trace produced with the looser tolerance `t1` is a prefix of
the one produced with `t2`. -/
theorem looser_tolerance_stops_no_later (f fp : α → α) (x0 t1 t2 : α) (m : ℕ)
    (h21 : t2 ≤ t1) (_h2pos : 0 < t2) :
    ∃ ts, (solve f fp x0 t1 m).xs ++ ts = (solve f fp x0 t2 m).xs :=
  solveGo_tol_mono f fp t1 t2 h21 m 0 _

/-- Witness for C10 at a concrete instance over `ℚ`. -/
theorem looser_tolerance_stops_no_later_witness :
    ∃ ts, (solve (fun x : ℚ => x) (fun _ => 1) 8 4 3).xs ++ ts
      = (solve (fun x : ℚ => x) (fun _ => 1) 8 2 3).xs :=
  looser_tolerance_stops_no_later (fun x : ℚ => x) (fun _ => 1) 8 4 2 3
    (by norm_num) (by norm_num)

/-- C7: the caller-supplied derivative `df` is the exact mathematical
derivative of the residual `f`: at every real `Vd` it equals
`-R*Is*exp(Vd/(n*Vt))/(n*Vt) - 1`, and `f` has exactly this derivative
at `Vd`. -/
theorem derivative_matches (Vd : ℝ) :
    Circuit.df Vd
      = -Circuit.R * Circuit.Is * Real.exp (Vd / (Circuit.n * Circuit.Vt))
          / (Circuit.n * Circuit.Vt) - 1 ∧
    HasDerivAt Circuit.f (Circuit.df Vd) Vd := by
  constructor
  · rw [Circuit.df]
    ring
  · have h1 : HasDerivAt (fun V : ℝ => V / (Circuit.n * Circuit.Vt))
        (1 / (Circuit.n * Circuit.Vt)) Vd := by
      simpa using (hasDerivAt_id Vd).div_const (Circuit.n * Circuit.Vt)
    have h2 := h1.exp
    have h3 := h2.sub_const 1
    have h4 := h3.const_mul (Circuit.R * Circuit.Is)
    have h5 := h4.const_sub Circuit.Vs
    have h6 := h5.sub (hasDerivAt_id Vd)
    have hval : Circuit.df Vd
        = -(Circuit.R * Circuit.Is * (Real.exp (Vd / (Circuit.n * Circuit.Vt))
            * (1 / (Circuit.n * Circuit.Vt)))) - 1 := by
      rw [Circuit.df]
      ring
    rw [hval]
    exact h6

/-- Degree-16 Taylor lower bound for the real exponential on nonnegative
inputs. -/
theorem taylor17_le_exp (r : ℝ) (hr : 0 ≤ r) :
    1 + r + r^2/2 + r^3/6 + r^4/24 + r^5/120 + r^6/720 + r^7/5040 + r^8/40320
      + r^9/362880 + r^10/3628800 + r^11/39916800 + r^12/479001600
      + r^13/6227020800 + r^14/87178291200 + r^15/1307674368000
      + r^16/20922789888000 ≤ Real.exp r := by
  have h := Real.sum_le_exp_of_nonneg hr 17
  have he : ∑ i ∈ Finset.range 17, r ^ i / (i.factorial : ℝ)
      = 1 + r + r^2/2 + r^3/6 + r^4/24 + r^5/120 + r^6/720 + r^7/5040 + r^8/40320
      + r^9/362880 + r^10/3628800 + r^11/39916800 + r^12/479001600
      + r^13/6227020800 + r^14/87178291200 + r^15/1307674368000
      + r^16/20922789888000 := by
    simp [Finset.sum_range_succ, Nat.factorial]
  rw [he] at h
  exact h

/-- Degree-16 Taylor upper bound for the real exponential on `[0, 1]`. -/
theorem exp_le_taylor17 (r : ℝ) (h0 : 0 ≤ r) (h1 : r ≤ 1) :
    Real.exp r ≤ 1 + r + r^2/2 + r^3/6 + r^4/24 + r^5/120 + r^6/720 + r^7/5040 + r^8/40320
      + r^9/362880 + r^10/3628800 + r^11/39916800 + r^12/479001600
      + r^13/6227020800 + r^14/87178291200 + r^15/1307674368000
      + r^16/20922789888000 + r^17 * 18 / 6046686277632000 := by
  have h := @Real.exp_bound' r h0 h1 17 (by norm_num)
  have he : ∑ i ∈ Finset.range 17, r ^ i / (i.factorial : ℝ)
      = 1 + r + r^2/2 + r^3/6 + r^4/24 + r^5/120 + r^6/720 + r^7/5040 + r^8/40320
      + r^9/362880 + r^10/3628800 + r^11/39916800 + r^12/479001600
      + r^13/6227020800 + r^14/87178291200 + r^15/1307674368000
      + r^16/20922789888000 := by
    simp [Finset.sum_range_succ, Nat.factorial]
  rw [he] at h
  norm_num [Nat.factorial] at h
  linarith

/-- The exponential in the residual is monotone in the voltage. -/
theorem exp_arg_mono {a x : ℝ} (h : a ≤ x) :
    Real.exp (a / (Circuit.n * Circuit.Vt)) ≤ Real.exp (x / (Circuit.n * Circuit.Vt)) := by
  apply Real.exp_le_exp.mpr
  apply (div_le_div_iff_of_pos_right (by rw [Circuit.n, Circuit.Vt]; norm_num)).mpr h

/-- Rational lower bound on the exponential at 0.7 volts. -/
theorem expLB_0 : ((54662400533336472636098747942045851 : ℝ) / 100000000000000000000000) ≤ Real.exp (((7 : ℝ) / 10) / (Circuit.n * Circuit.Vt)) := by
  have hsplit : ((7 : ℝ) / 10) / (Circuit.n * Circuit.Vt) = ((28 : ℕ) : ℝ) * (((250 : ℝ) / 259)) := by
    rw [Circuit.n, Circuit.Vt]
    norm_num
  rw [hsplit, Real.exp_nat_mul]
  have hT : (((2625446469633658335673577589624387971427 : ℝ) / 1000000000000000000000000000000000000000)) ≤ Real.exp (((250 : ℝ) / 259)) :=
    le_trans (by norm_num) (taylor17_le_exp ((250 : ℝ) / 259) (by norm_num))
  calc ((54662400533336472636098747942045851 : ℝ) / 100000000000000000000000) ≤ (((2625446469633658335673577589624387971427 : ℝ) / 1000000000000000000000000000000000000000)) ^ 28 := by norm_num
    _ ≤ Real.exp (((250 : ℝ) / 259)) ^ 28 := pow_le_pow_left₀ (by norm_num) hT 28

/-- Rational upper bound on the exponential at 0.7 volts. -/
theorem expUB_0 : Real.exp (((7 : ℝ) / 10) / (Circuit.n * Circuit.Vt)) ≤ ((6832800066667177982509851943314061 : ℝ) / 12500000000000000000000) := by
  have hsplit : ((7 : ℝ) / 10) / (Circuit.n * Circuit.Vt) = ((28 : ℕ) : ℝ) * (((250 : ℝ) / 259)) := by
    rw [Circuit.n, Circuit.Vt]
    norm_num
  rw [hsplit, Real.exp_nat_mul]
  have hT : Real.exp (((250 : ℝ) / 259)) ≤ (((105017858785346398694779755275198083347 : ℝ) / 40000000000000000000000000000000000000)) :=
    le_trans (exp_le_taylor17 ((250 : ℝ) / 259) (by norm_num) (by norm_num)) (by norm_num)
  calc Real.exp (((250 : ℝ) / 259)) ^ 28 ≤ (((105017858785346398694779755275198083347 : ℝ) / 40000000000000000000000000000000000000)) ^ 28 :=
      pow_le_pow_left₀ (Real.exp_pos _).le hT 28
    _ ≤ ((6832800066667177982509851943314061 : ℝ) / 12500000000000000000000) := by norm_num

/-- Rational lower bound on the exponential at 0.674304958985509 volts. -/
theorem expLB_1 : ((1013446905105498516443027712916783 : ℝ) / 5000000000000000000000) ≤ Real.exp (((6743049589855093306094353 : ℝ) / 10000000000000000000000000) / (Circuit.n * Circuit.Vt)) := by
  have hsplit : ((6743049589855093306094353 : ℝ) / 10000000000000000000000000) / (Circuit.n * Circuit.Vt) = ((28 : ℕ) : ℝ) * (((6743049589855093306094353 : ℝ) / 7252000000000000000000000)) := by
    rw [Circuit.n, Circuit.Vt]
    norm_num
  rw [hsplit, Real.exp_nat_mul]
  have hT : (((2534051242360246283925096691172164123947 : ℝ) / 1000000000000000000000000000000000000000)) ≤ Real.exp (((6743049589855093306094353 : ℝ) / 7252000000000000000000000)) :=
    le_trans (by norm_num) (taylor17_le_exp ((6743049589855093306094353 : ℝ) / 7252000000000000000000000) (by norm_num))
  calc ((1013446905105498516443027712916783 : ℝ) / 5000000000000000000000) ≤ (((2534051242360246283925096691172164123947 : ℝ) / 1000000000000000000000000000000000000000)) ^ 28 := by norm_num
    _ ≤ Real.exp (((6743049589855093306094353 : ℝ) / 7252000000000000000000000)) ^ 28 := pow_le_pow_left₀ (by norm_num) hT 28

/-- Rational upper bound on the exponential at 0.674304958985509 volts. -/
theorem expUB_1 : Real.exp (((674304958985509334175921 : ℝ) / 1000000000000000000000000) / (Circuit.n * Circuit.Vt)) ≤ ((4053787620422033326056841055881401 : ℝ) / 20000000000000000000000) := by
  have hsplit : ((674304958985509334175921 : ℝ) / 1000000000000000000000000) / (Circuit.n * Circuit.Vt) = ((28 : ℕ) : ℝ) * (((674304958985509334175921 : ℝ) / 725200000000000000000000)) := by
    rw [Circuit.n, Circuit.Vt]
    norm_num
  rw [hsplit, Real.exp_nat_mul]
  have hT : Real.exp (((674304958985509334175921 : ℝ) / 725200000000000000000000)) ≤ (((2534051242360247160420845953949659665167 : ℝ) / 1000000000000000000000000000000000000000)) :=
    le_trans (exp_le_taylor17 ((674304958985509334175921 : ℝ) / 725200000000000000000000) (by norm_num) (by norm_num)) (by norm_num)
  calc Real.exp (((674304958985509334175921 : ℝ) / 725200000000000000000000)) ^ 28 ≤ (((2534051242360247160420845953949659665167 : ℝ) / 1000000000000000000000000000000000000000)) ^ 28 :=
      pow_le_pow_left₀ (Real.exp_pos _).le hT 28
    _ ≤ ((4053787620422033326056841055881401 : ℝ) / 20000000000000000000000) := by norm_num

/-- Rational lower bound on the exponential at 0.648960942288892 volts. -/
theorem expLB_2 : ((76183217925199952904069384113311479 : ℝ) / 1000000000000000000000000) ≤ Real.exp (((1297921884577783181691299 : ℝ) / 2000000000000000000000000) / (Circuit.n * Circuit.Vt)) := by
  have hsplit : ((1297921884577783181691299 : ℝ) / 2000000000000000000000000) / (Circuit.n * Circuit.Vt) = ((28 : ℕ) : ℝ) * (((1297921884577783181691299 : ℝ) / 1450400000000000000000000)) := by
    rw [Circuit.n, Circuit.Vt]
    norm_num
  rw [hsplit, Real.exp_nat_mul]
  have hT : (((2447021767322931396693519453132368867547 : ℝ) / 1000000000000000000000000000000000000000)) ≤ Real.exp (((1297921884577783181691299 : ℝ) / 1450400000000000000000000)) :=
    le_trans (by norm_num) (taylor17_le_exp ((1297921884577783181691299 : ℝ) / 1450400000000000000000000) (by norm_num))
  calc ((76183217925199952904069384113311479 : ℝ) / 1000000000000000000000000) ≤ (((2447021767322931396693519453132368867547 : ℝ) / 1000000000000000000000000000000000000000)) ^ 28 := by norm_num
    _ ≤ Real.exp (((1297921884577783181691299 : ℝ) / 1450400000000000000000000)) ^ 28 := pow_le_pow_left₀ (by norm_num) hT 28

/-- Rational upper bound on the exponential at 0.648960942288892 volts. -/
theorem expUB_2 : Real.exp (((648960942288891599795601 : ℝ) / 1000000000000000000000000) / (Circuit.n * Circuit.Vt)) ≤ ((15236643585040074387163726399156553 : ℝ) / 200000000000000000000000) := by
  have hsplit : ((648960942288891599795601 : ℝ) / 1000000000000000000000000) / (Circuit.n * Circuit.Vt) = ((28 : ℕ) : ℝ) * (((648960942288891599795601 : ℝ) / 725200000000000000000000)) := by
    rw [Circuit.n, Circuit.Vt]
    norm_num
  rw [hsplit, Real.exp_nat_mul]
  have hT : Real.exp (((648960942288891599795601 : ℝ) / 725200000000000000000000)) ≤ (((1223510883661465938693049597250332723377 : ℝ) / 500000000000000000000000000000000000000)) :=
    le_trans (exp_le_taylor17 ((648960942288891599795601 : ℝ) / 725200000000000000000000) (by norm_num) (by norm_num)) (by norm_num)
  calc Real.exp (((648960942288891599795601 : ℝ) / 725200000000000000000000)) ^ 28 ≤ (((1223510883661465938693049597250332723377 : ℝ) / 500000000000000000000000000000000000000)) ^ 28 :=
      pow_le_pow_left₀ (Real.exp_pos _).le hT 28
    _ ≤ ((15236643585040074387163726399156553 : ℝ) / 200000000000000000000000) := by norm_num

/-- Rational lower bound on the exponential at 0.624548464054094 volts. -/
theorem expLB_3 : ((2968299948542225752238772375331789 : ℝ) / 100000000000000000000000) ≤ Real.exp (((6245484640540940667826051 : ℝ) / 10000000000000000000000000) / (Circuit.n * Circuit.Vt)) := by
  have hsplit : ((6245484640540940667826051 : ℝ) / 10000000000000000000000000) / (Circuit.n * Circuit.Vt) = ((28 : ℕ) : ℝ) * (((127458870215121238118899 : ℝ) / 148000000000000000000000)) := by
    rw [Circuit.n, Circuit.Vt]
    norm_num
  rw [hsplit, Real.exp_nat_mul]
  have hT : (((59150462376080012546516175037707807719 : ℝ) / 25000000000000000000000000000000000000)) ≤ Real.exp (((127458870215121238118899 : ℝ) / 148000000000000000000000)) :=
    le_trans (by norm_num) (taylor17_le_exp ((127458870215121238118899 : ℝ) / 148000000000000000000000) (by norm_num))
  calc ((2968299948542225752238772375331789 : ℝ) / 100000000000000000000000) ≤ (((59150462376080012546516175037707807719 : ℝ) / 25000000000000000000000000000000000000)) ^ 28 := by norm_num
    _ ≤ Real.exp (((127458870215121238118899 : ℝ) / 148000000000000000000000)) ^ 28 := pow_le_pow_left₀ (by norm_num) hT 28

/-- Rational upper bound on the exponential at 0.624548464054094 volts. -/
theorem expUB_3 : Real.exp (((6245484640540940839085737 : ℝ) / 10000000000000000000000000) / (Circuit.n * Circuit.Vt)) ≤ ((5936599897084471922012548837407697 : ℝ) / 200000000000000000000000) := by
  have hsplit : ((6245484640540940839085737 : ℝ) / 10000000000000000000000000) / (Circuit.n * Circuit.Vt) = ((28 : ℕ) : ℝ) * (((6245484640540940839085737 : ℝ) / 7252000000000000000000000)) := by
    rw [Circuit.n, Circuit.Vt]
    norm_num
  rw [hsplit, Real.exp_nat_mul]
  have hT : Real.exp (((6245484640540940839085737 : ℝ) / 7252000000000000000000000)) ≤ (((1183009247521600396240368332578982854489 : ℝ) / 500000000000000000000000000000000000000)) :=
    le_trans (exp_le_taylor17 ((6245484640540940839085737 : ℝ) / 7252000000000000000000000) (by norm_num) (by norm_num)) (by norm_num)
  calc Real.exp (((6245484640540940839085737 : ℝ) / 7252000000000000000000000)) ^ 28 ≤ (((1183009247521600396240368332578982854489 : ℝ) / 500000000000000000000000000000000000000)) ^ 28 :=
      pow_le_pow_left₀ (Real.exp_pos _).le hT 28
    _ ≤ ((5936599897084471922012548837407697 : ℝ) / 200000000000000000000000) := by norm_num

/-- Rational lower bound on the exponential at 0.602485529942813 volts. -/
theorem expLB_4 : ((12663498687201749548672589852250229 : ℝ) / 1000000000000000000000000) ≤ Real.exp (((3012427649714065902026979 : ℝ) / 5000000000000000000000000) / (Circuit.n * Circuit.Vt)) := by
  have hsplit : ((3012427649714065902026979 : ℝ) / 5000000000000000000000000) / (Circuit.n * Circuit.Vt) = ((28 : ℕ) : ℝ) * (((3012427649714065902026979 : ℝ) / 3626000000000000000000000)) := by
    rw [Circuit.n, Circuit.Vt]
    norm_num
  rw [hsplit, Real.exp_nat_mul]
  have hT : (((2295120486952244952183909111109017217023 : ℝ) / 1000000000000000000000000000000000000000)) ≤ Real.exp (((3012427649714065902026979 : ℝ) / 3626000000000000000000000)) :=
    le_trans (by norm_num) (taylor17_le_exp ((3012427649714065902026979 : ℝ) / 3626000000000000000000000) (by norm_num))
  calc ((12663498687201749548672589852250229 : ℝ) / 1000000000000000000000000) ≤ (((2295120486952244952183909111109017217023 : ℝ) / 1000000000000000000000000000000000000000)) ^ 28 := by norm_num
    _ ≤ Real.exp (((3012427649714065902026979 : ℝ) / 3626000000000000000000000)) ^ 28 := pow_le_pow_left₀ (by norm_num) hT 28

/-- Rational upper bound on the exponential at 0.602485529942813 volts. -/
theorem expUB_4 : Real.exp (((48198842395425056856129 : ℝ) / 80000000000000000000000) / (Circuit.n * Circuit.Vt)) ≤ ((12663498687201784039214248498450761 : ℝ) / 1000000000000000000000000) := by
  have hsplit : ((48198842395425056856129 : ℝ) / 80000000000000000000000) / (Circuit.n * Circuit.Vt) = ((28 : ℕ) : ℝ) * (((6885548913632150979447 : ℝ) / 8288000000000000000000)) := by
    rw [Circuit.n, Circuit.Vt]
    norm_num
  rw [hsplit, Real.exp_nat_mul]
  have hT : Real.exp (((6885548913632150979447 : ℝ) / 8288000000000000000000)) ≤ (((2295120486952245175435089311752880929887 : ℝ) / 1000000000000000000000000000000000000000)) :=
    le_trans (exp_le_taylor17 ((6885548913632150979447 : ℝ) / 8288000000000000000000) (by norm_num) (by norm_num)) (by norm_num)
  calc Real.exp (((6885548913632150979447 : ℝ) / 8288000000000000000000)) ^ 28 ≤ (((2295120486952245175435089311752880929887 : ℝ) / 1000000000000000000000000000000000000000)) ^ 28 :=
      pow_le_pow_left₀ (Real.exp_pos _).le hT 28
    _ ≤ ((12663498687201784039214248498450761 : ℝ) / 1000000000000000000000000) := by norm_num

/-- Rational lower bound on the exponential at 0.585614045605729 volts. -/
theorem expLB_5 : ((16504050016716771895530489605865623 : ℝ) / 2500000000000000000000000) ≤ Real.exp (((585614045605728715708643 : ℝ) / 1000000000000000000000000) / (Circuit.n * Circuit.Vt)) := by
  have hsplit : ((585614045605728715708643 : ℝ) / 1000000000000000000000000) / (Circuit.n * Circuit.Vt) = ((28 : ℕ) : ℝ) * (((83659149372246959386949 : ℝ) / 103600000000000000000000)) := by
    rw [Circuit.n, Circuit.Vt]
    norm_num
  rw [hsplit, Real.exp_nat_mul]
  have hT : (((112117087829343660920027494313064777393 : ℝ) / 50000000000000000000000000000000000000)) ≤ Real.exp (((83659149372246959386949 : ℝ) / 103600000000000000000000)) :=
    le_trans (by norm_num) (taylor17_le_exp ((83659149372246959386949 : ℝ) / 103600000000000000000000) (by norm_num))
  calc ((16504050016716771895530489605865623 : ℝ) / 2500000000000000000000000) ≤ (((112117087829343660920027494313064777393 : ℝ) / 50000000000000000000000000000000000000)) ^ 28 := by norm_num
    _ ≤ Real.exp (((83659149372246959386949 : ℝ) / 103600000000000000000000)) ^ 28 := pow_le_pow_left₀ (by norm_num) hT 28

/-- Rational upper bound on the exponential at 0.585614045605729 volts. -/
theorem expUB_5 : Real.exp (((1171228091211457540966133 : ℝ) / 2000000000000000000000000) / (Circuit.n * Circuit.Vt)) ≤ ((66016200066867291981004805372297059 : ℝ) / 10000000000000000000000000) := by
  have hsplit : ((1171228091211457540966133 : ℝ) / 2000000000000000000000000) / (Circuit.n * Circuit.Vt) = ((28 : ℕ) : ℝ) * (((1171228091211457540966133 : ℝ) / 1450400000000000000000000)) := by
    rw [Circuit.n, Circuit.Vt]
    norm_num
  rw [hsplit, Real.exp_nat_mul]
  have hT : Real.exp (((1171228091211457540966133 : ℝ) / 1450400000000000000000000)) ≤ (((280292719573359183294365099455345500849 : ℝ) / 125000000000000000000000000000000000000)) :=
    le_trans (exp_le_taylor17 ((1171228091211457540966133 : ℝ) / 1450400000000000000000000) (by norm_num) (by norm_num)) (by norm_num)
  calc Real.exp (((1171228091211457540966133 : ℝ) / 1450400000000000000000000)) ^ 28 ≤ (((280292719573359183294365099455345500849 : ℝ) / 125000000000000000000000000000000000000)) ^ 28 :=
      pow_le_pow_left₀ (Real.exp_pos _).le hT 28
    _ ≤ ((66016200066867291981004805372297059 : ℝ) / 10000000000000000000000000) := by norm_num

/-- Rational lower bound on the exponential at 0.57706644984271 volts. -/
theorem expLB_6 : ((47459521322039211979798018150503127 : ℝ) / 10000000000000000000000000) ≤ Real.exp (((721333062303387989800073 : ℝ) / 1250000000000000000000000) / (Circuit.n * Circuit.Vt)) := by
  have hsplit : ((721333062303387989800073 : ℝ) / 1250000000000000000000000) / (Circuit.n * Circuit.Vt) = ((28 : ℕ) : ℝ) * (((721333062303387989800073 : ℝ) / 906500000000000000000000)) := by
    rw [Circuit.n, Circuit.Vt]
    norm_num
  rw [hsplit, Real.exp_nat_mul]
  have hT : (((138504216301970663339576956109339340461 : ℝ) / 62500000000000000000000000000000000000)) ≤ Real.exp (((721333062303387989800073 : ℝ) / 906500000000000000000000)) :=
    le_trans (by norm_num) (taylor17_le_exp ((721333062303387989800073 : ℝ) / 906500000000000000000000) (by norm_num))
  calc ((47459521322039211979798018150503127 : ℝ) / 10000000000000000000000000) ≤ (((138504216301970663339576956109339340461 : ℝ) / 62500000000000000000000000000000000000)) ^ 28 := by norm_num
    _ ≤ Real.exp (((721333062303387989800073 : ℝ) / 906500000000000000000000)) ^ 28 := pow_le_pow_left₀ (by norm_num) hT 28

/-- Rational upper bound on the exponential at 0.57706644984271 volts. -/
theorem expUB_6 : Real.exp (((2885332249213552499584277 : ℝ) / 5000000000000000000000000) / (Circuit.n * Circuit.Vt)) ≤ ((2966220082627465420308785756029149 : ℝ) / 625000000000000000000000) := by
  have hsplit : ((2885332249213552499584277 : ℝ) / 5000000000000000000000000) / (Circuit.n * Circuit.Vt) = ((28 : ℕ) : ℝ) * (((2885332249213552499584277 : ℝ) / 3626000000000000000000000)) := by
    rw [Circuit.n, Circuit.Vt]
    norm_num
  rw [hsplit, Real.exp_nat_mul]
  have hT : Real.exp (((2885332249213552499584277 : ℝ) / 3626000000000000000000000)) ≤ (((2216067460831531004902979404725250353921 : ℝ) / 1000000000000000000000000000000000000000)) :=
    le_trans (exp_le_taylor17 ((2885332249213552499584277 : ℝ) / 3626000000000000000000000) (by norm_num) (by norm_num)) (by norm_num)
  calc Real.exp (((2885332249213552499584277 : ℝ) / 3626000000000000000000000)) ^ 28 ≤ (((2216067460831531004902979404725250353921 : ℝ) / 1000000000000000000000000000000000000000)) ^ 28 :=
      pow_le_pow_left₀ (Real.exp_pos _).le hT 28
    _ ≤ ((2966220082627465420308785756029149 : ℝ) / 625000000000000000000000) := by norm_num

/-- Rational lower bound on the exponential at 0.575313214198075 volts. -/
theorem expLB_7 : ((8870638311227682957225182124434241 : ℝ) / 2000000000000000000000000) ≤ Real.exp (((5753132141980752065901681 : ℝ) / 10000000000000000000000000) / (Circuit.n * Circuit.Vt)) := by
  have hsplit : ((5753132141980752065901681 : ℝ) / 10000000000000000000000000) / (Circuit.n * Circuit.Vt) = ((28 : ℕ) : ℝ) * (((5753132141980752065901681 : ℝ) / 7252000000000000000000000)) := by
    rw [Circuit.n, Circuit.Vt]
    norm_num
  rw [hsplit, Real.exp_nat_mul]
  have hT : (((2210716391154048636751576853340525461293 : ℝ) / 1000000000000000000000000000000000000000)) ≤ Real.exp (((5753132141980752065901681 : ℝ) / 7252000000000000000000000)) :=
    le_trans (by norm_num) (taylor17_le_exp ((5753132141980752065901681 : ℝ) / 7252000000000000000000000) (by norm_num))
  calc ((8870638311227682957225182124434241 : ℝ) / 2000000000000000000000000) ≤ (((2210716391154048636751576853340525461293 : ℝ) / 1000000000000000000000000000000000000000)) ^ 28 := by norm_num
    _ ≤ Real.exp (((5753132141980752065901681 : ℝ) / 7252000000000000000000000)) ^ 28 := pow_le_pow_left₀ (by norm_num) hT 28

/-- Rational upper bound on the exponential at 0.575313214198075 volts. -/
theorem expUB_7 : Real.exp (((5753132141980754328672697 : ℝ) / 10000000000000000000000000) / (Circuit.n * Circuit.Vt)) ≤ ((44353191556138834931774052627453517 : ℝ) / 10000000000000000000000000) := by
  have hsplit : ((5753132141980754328672697 : ℝ) / 10000000000000000000000000) / (Circuit.n * Circuit.Vt) = ((28 : ℕ) : ℝ) * (((5753132141980754328672697 : ℝ) / 7252000000000000000000000)) := by
    rw [Circuit.n, Circuit.Vt]
    norm_num
  rw [hsplit, Real.exp_nat_mul]
  have hT : Real.exp (((5753132141980754328672697 : ℝ) / 7252000000000000000000000)) ≤ (((8635610902945505408838679067407917753 : ℝ) / 3906250000000000000000000000000000000)) :=
    le_trans (exp_le_taylor17 ((5753132141980754328672697 : ℝ) / 7252000000000000000000000) (by norm_num) (by norm_num)) (by norm_num)
  calc Real.exp (((5753132141980754328672697 : ℝ) / 7252000000000000000000000)) ^ 28 ≤ (((8635610902945505408838679067407917753 : ℝ) / 3906250000000000000000000000000000000)) ^ 28 :=
      pow_le_pow_left₀ (Real.exp_pos _).le hT 28
    _ ≤ ((44353191556138834931774052627453517 : ℝ) / 10000000000000000000000000) := by norm_num

/-- Rational lower bound on the exponential at 0.575251487046231 volts. -/
theorem expLB_8 : ((44247611003929158122866705032246229 : ℝ) / 10000000000000000000000000) ≤ Real.exp (((5752514870462308052037981 : ℝ) / 10000000000000000000000000) / (Circuit.n * Circuit.Vt)) := by
  have hsplit : ((5752514870462308052037981 : ℝ) / 10000000000000000000000000) / (Circuit.n * Circuit.Vt) = ((28 : ℕ) : ℝ) * (((5752514870462308052037981 : ℝ) / 7252000000000000000000000)) := by
    rw [Circuit.n, Circuit.Vt]
    norm_num
  rw [hsplit, Real.exp_nat_mul]
  have hT : (((442105645738004213274134057844569306657 : ℝ) / 200000000000000000000000000000000000000)) ≤ Real.exp (((5752514870462308052037981 : ℝ) / 7252000000000000000000000)) :=
    le_trans (by norm_num) (taylor17_le_exp ((5752514870462308052037981 : ℝ) / 7252000000000000000000000) (by norm_num))
  calc ((44247611003929158122866705032246229 : ℝ) / 10000000000000000000000000) ≤ (((442105645738004213274134057844569306657 : ℝ) / 200000000000000000000000000000000000000)) ^ 28 := by norm_num
    _ ≤ Real.exp (((5752514870462308052037981 : ℝ) / 7252000000000000000000000)) ^ 28 := pow_le_pow_left₀ (by norm_num) hT 28

/-- Rational upper bound on the exponential at 0.575251487046231 volts. -/
theorem expUB_8 : Real.exp (((5752514870462312735051481 : ℝ) / 10000000000000000000000000) / (Circuit.n * Circuit.Vt)) ≤ ((44247611003929990686487239263971153 : ℝ) / 10000000000000000000000000) := by
  have hsplit : ((5752514870462312735051481 : ℝ) / 10000000000000000000000000) / (Circuit.n * Circuit.Vt) = ((28 : ℕ) : ℝ) * (((5752514870462312735051481 : ℝ) / 7252000000000000000000000)) := by
    rw [Circuit.n, Circuit.Vt]
    norm_num
  rw [hsplit, Real.exp_nat_mul]
  have hT : Real.exp (((5752514870462312735051481 : ℝ) / 7252000000000000000000000)) ≤ (((1105264114345011275923330167924113630877 : ℝ) / 500000000000000000000000000000000000000)) :=
    le_trans (exp_le_taylor17 ((5752514870462312735051481 : ℝ) / 7252000000000000000000000) (by norm_num) (by norm_num)) (by norm_num)
  calc Real.exp (((5752514870462312735051481 : ℝ) / 7252000000000000000000000)) ^ 28 ≤ (((1105264114345011275923330167924113630877 : ℝ) / 500000000000000000000000000000000000000)) ^ 28 :=
      pow_le_pow_left₀ (Real.exp_pos _).le hT 28
    _ ≤ ((44247611003929990686487239263971153 : ℝ) / 10000000000000000000000000) := by norm_num

/-- Rational lower bound on the exponential at 0.575251413801207 volts. -/
theorem expLB_9 : ((22123742936082014241453943120826681 : ℝ) / 5000000000000000000000000) ≤ Real.exp (((2876257069006037464181071 : ℝ) / 5000000000000000000000000) / (Circuit.n * Circuit.Vt)) := by
  have hsplit : ((2876257069006037464181071 : ℝ) / 5000000000000000000000000) / (Circuit.n * Circuit.Vt) = ((28 : ℕ) : ℝ) * (((2876257069006037464181071 : ℝ) / 3626000000000000000000000)) := by
    rw [Circuit.n, Circuit.Vt]
    norm_num
  rw [hsplit, Real.exp_nat_mul]
  have hT : (((2210528005427219816229398927172924996281 : ℝ) / 1000000000000000000000000000000000000000)) ≤ Real.exp (((2876257069006037464181071 : ℝ) / 3626000000000000000000000)) :=
    le_trans (by norm_num) (taylor17_le_exp ((2876257069006037464181071 : ℝ) / 3626000000000000000000000) (by norm_num))
  calc ((22123742936082014241453943120826681 : ℝ) / 5000000000000000000000000) ≤ (((2210528005427219816229398927172924996281 : ℝ) / 1000000000000000000000000000000000000000)) ^ 28 := by norm_num
    _ ≤ Real.exp (((2876257069006037464181071 : ℝ) / 3626000000000000000000000)) ^ 28 := pow_le_pow_left₀ (by norm_num) hT 28

/-- Rational upper bound on the exponential at 0.575251413801208 volts. -/
theorem expUB_9 : Real.exp (((5752514138012084429097383 : ℝ) / 10000000000000000000000000) / (Circuit.n * Circuit.Vt)) ≤ ((8849497174433136820462040478007861 : ℝ) / 2000000000000000000000000) := by
  have hsplit : ((5752514138012084429097383 : ℝ) / 10000000000000000000000000) / (Circuit.n * Circuit.Vt) = ((28 : ℕ) : ℝ) * (((5752514138012084429097383 : ℝ) / 7252000000000000000000000)) := by
    rw [Circuit.n, Circuit.Vt]
    norm_num
  rw [hsplit, Real.exp_nat_mul]
  have hT : Real.exp (((5752514138012084429097383 : ℝ) / 7252000000000000000000000)) ≤ (((2210528005427222770225366163763258002177 : ℝ) / 1000000000000000000000000000000000000000)) :=
    le_trans (exp_le_taylor17 ((5752514138012084429097383 : ℝ) / 7252000000000000000000000) (by norm_num) (by norm_num)) (by norm_num)
  calc Real.exp (((5752514138012084429097383 : ℝ) / 7252000000000000000000000)) ^ 28 ≤ (((2210528005427222770225366163763258002177 : ℝ) / 1000000000000000000000000000000000000000)) ^ 28 :=
      pow_le_pow_left₀ (Real.exp_pos _).le hT 28
    _ ≤ ((8849497174433136820462040478007861 : ℝ) / 2000000000000000000000000) := by norm_num

/-- Interval propagation for Newton step 1 of the canonical run. -/
theorem nstep_0 (x : ℝ) (hax : ((7 : ℝ) / 10) ≤ x) (hxb : x ≤ ((7 : ℝ) / 10)) :
    (((6743049589855093306094353 : ℝ) / 10000000000000000000000000) ≤ x - Circuit.f x / Circuit.df x ∧
      x - Circuit.f x / Circuit.df x ≤ ((674304958985509334175921 : ℝ) / 1000000000000000000000000)) ∧
    (((1284752050724533291203951 : ℝ) / 50000000000000000000000000) ≤ Circuit.f x / Circuit.df x ∧
      Circuit.f x / Circuit.df x ≤ ((160594006340566683691029 : ℝ) / 6250000000000000000000000)) := by
  have hE1 : ((54662400533336472636098747942045851 : ℝ) / 100000000000000000000000) ≤ Real.exp (x / (Circuit.n * Circuit.Vt)) :=
    le_trans expLB_0 (exp_arg_mono hax)
  have hE2 : Real.exp (x / (Circuit.n * Circuit.Vt)) ≤ ((6832800066667177982509851943314061 : ℝ) / 12500000000000000000000) :=
    le_trans (exp_arg_mono hxb) expUB_0
  rw [Circuit.f, Circuit.df, Circuit.Vs, Circuit.R, Circuit.Is]
  rw [(by rw [Circuit.n, Circuit.Vt]; norm_num :
    Circuit.n * Circuit.Vt = 259 / 10000)] at hE1 hE2 ⊢
  revert hE1 hE2
  generalize Real.exp (x / (259 / 10000)) = E
  intro hE1 hE2
  have hD : -1000.0 * 1e-12 * (E / (259 / 10000)) - 1 < 0 := by
    have hEpos : (0 : ℝ) < E := lt_of_lt_of_le (by norm_num) hE1
    linarith
  refine ⟨⟨?_, ?_⟩, ?_, ?_⟩
  · rw [le_sub_comm, div_le_iff_of_neg hD]
    nlinarith [mul_nonneg (sub_nonneg.mpr hax) (sub_nonneg.mpr hE1),
      mul_nonneg (sub_nonneg.mpr hax) (sub_nonneg.mpr hE2),
      mul_nonneg (sub_nonneg.mpr hxb) (sub_nonneg.mpr hE1),
      mul_nonneg (sub_nonneg.mpr hxb) (sub_nonneg.mpr hE2)]
  · rw [sub_le_comm, le_div_iff_of_neg hD]
    nlinarith [mul_nonneg (sub_nonneg.mpr hax) (sub_nonneg.mpr hE1),
      mul_nonneg (sub_nonneg.mpr hax) (sub_nonneg.mpr hE2),
      mul_nonneg (sub_nonneg.mpr hxb) (sub_nonneg.mpr hE1),
      mul_nonneg (sub_nonneg.mpr hxb) (sub_nonneg.mpr hE2)]
  · rw [le_div_iff_of_neg hD]
    linarith
  · rw [div_le_iff_of_neg hD]
    linarith

/-- Interval propagation for Newton step 2 of the canonical run. -/
theorem nstep_1 (x : ℝ) (hax : ((6743049589855093306094353 : ℝ) / 10000000000000000000000000) ≤ x) (hxb : x ≤ ((674304958985509334175921 : ℝ) / 1000000000000000000000000)) :
    (((1297921884577783181691299 : ℝ) / 2000000000000000000000000) ≤ x - Circuit.f x / Circuit.df x ∧
      x - Circuit.f x / Circuit.df x ≤ ((648960942288891599795601 : ℝ) / 1000000000000000000000000)) ∧
    (((1267200834830886718993219 : ℝ) / 50000000000000000000000000) ≤ Circuit.f x / Circuit.df x ∧
      Circuit.f x / Circuit.df x ≤ ((1267200834830886988212073 : ℝ) / 50000000000000000000000000)) := by
  have hE1 : ((1013446905105498516443027712916783 : ℝ) / 5000000000000000000000) ≤ Real.exp (x / (Circuit.n * Circuit.Vt)) :=
    le_trans expLB_1 (exp_arg_mono hax)
  have hE2 : Real.exp (x / (Circuit.n * Circuit.Vt)) ≤ ((4053787620422033326056841055881401 : ℝ) / 20000000000000000000000) :=
    le_trans (exp_arg_mono hxb) expUB_1
  rw [Circuit.f, Circuit.df, Circuit.Vs, Circuit.R, Circuit.Is]
  rw [(by rw [Circuit.n, Circuit.Vt]; norm_num :
    Circuit.n * Circuit.Vt = 259 / 10000)] at hE1 hE2 ⊢
  revert hE1 hE2
  generalize Real.exp (x / (259 / 10000)) = E
  intro hE1 hE2
  have hD : -1000.0 * 1e-12 * (E / (259 / 10000)) - 1 < 0 := by
    have hEpos : (0 : ℝ) < E := lt_of_lt_of_le (by norm_num) hE1
    linarith
  refine ⟨⟨?_, ?_⟩, ?_, ?_⟩
  · rw [le_sub_comm, div_le_iff_of_neg hD]
    nlinarith [mul_nonneg (sub_nonneg.mpr hax) (sub_nonneg.mpr hE1),
      mul_nonneg (sub_nonneg.mpr hax) (sub_nonneg.mpr hE2),
      mul_nonneg (sub_nonneg.mpr hxb) (sub_nonneg.mpr hE1),
      mul_nonneg (sub_nonneg.mpr hxb) (sub_nonneg.mpr hE2)]
  · rw [sub_le_comm, le_div_iff_of_neg hD]
    nlinarith [mul_nonneg (sub_nonneg.mpr hax) (sub_nonneg.mpr hE1),
      mul_nonneg (sub_nonneg.mpr hax) (sub_nonneg.mpr hE2),
      mul_nonneg (sub_nonneg.mpr hxb) (sub_nonneg.mpr hE1),
      mul_nonneg (sub_nonneg.mpr hxb) (sub_nonneg.mpr hE2)]
  · rw [le_div_iff_of_neg hD]
    linarith
  · rw [div_le_iff_of_neg hD]
    linarith

/-- Interval propagation for Newton step 3 of the canonical run. -/
theorem nstep_2 (x : ℝ) (hax : ((1297921884577783181691299 : ℝ) / 2000000000000000000000000) ≤ x) (hxb : x ≤ ((648960942288891599795601 : ℝ) / 1000000000000000000000000)) :
    (((6245484640540940667826051 : ℝ) / 10000000000000000000000000) ≤ x - Circuit.f x / Circuit.df x ∧
      x - Circuit.f x / Circuit.df x ≤ ((6245484640540940839085737 : ℝ) / 10000000000000000000000000)) ∧
    (((1220623911739875794199281 : ℝ) / 50000000000000000000000000) ≤ Circuit.f x / Circuit.df x ∧
      Circuit.f x / Circuit.df x ≤ ((2441247823479752406608599 : ℝ) / 100000000000000000000000000)) := by
  have hE1 : ((76183217925199952904069384113311479 : ℝ) / 1000000000000000000000000) ≤ Real.exp (x / (Circuit.n * Circuit.Vt)) :=
    le_trans expLB_2 (exp_arg_mono hax)
  have hE2 : Real.exp (x / (Circuit.n * Circuit.Vt)) ≤ ((15236643585040074387163726399156553 : ℝ) / 200000000000000000000000) :=
    le_trans (exp_arg_mono hxb) expUB_2
  rw [Circuit.f, Circuit.df, Circuit.Vs, Circuit.R, Circuit.Is]
  rw [(by rw [Circuit.n, Circuit.Vt]; norm_num :
    Circuit.n * Circuit.Vt = 259 / 10000)] at hE1 hE2 ⊢
  revert hE1 hE2
  generalize Real.exp (x / (259 / 10000)) = E
  intro hE1 hE2
  have hD : -1000.0 * 1e-12 * (E / (259 / 10000)) - 1 < 0 := by
    have hEpos : (0 : ℝ) < E := lt_of_lt_of_le (by norm_num) hE1
    linarith
  refine ⟨⟨?_, ?_⟩, ?_, ?_⟩
  · rw [le_sub_comm, div_le_iff_of_neg hD]
    nlinarith [mul_nonneg (sub_nonneg.mpr hax) (sub_nonneg.mpr hE1),
      mul_nonneg (sub_nonneg.mpr hax) (sub_nonneg.mpr hE2),
      mul_nonneg (sub_nonneg.mpr hxb) (sub_nonneg.mpr hE1),
      mul_nonneg (sub_nonneg.mpr hxb) (sub_nonneg.mpr hE2)]
  · rw [sub_le_comm, le_div_iff_of_neg hD]
    nlinarith [mul_nonneg (sub_nonneg.mpr hax) (sub_nonneg.mpr hE1),
      mul_nonneg (sub_nonneg.mpr hax) (sub_nonneg.mpr hE2),
      mul_nonneg (sub_nonneg.mpr hxb) (sub_nonneg.mpr hE1),
      mul_nonneg (sub_nonneg.mpr hxb) (sub_nonneg.mpr hE2)]
  · rw [le_div_iff_of_neg hD]
    linarith
  · rw [div_le_iff_of_neg hD]
    linarith

/-- Interval propagation for Newton step 4 of the canonical run. -/
theorem nstep_3 (x : ℝ) (hax : ((6245484640540940667826051 : ℝ) / 10000000000000000000000000) ≤ x) (hxb : x ≤ ((6245484640540940839085737 : ℝ) / 10000000000000000000000000)) :
    (((3012427649714065902026979 : ℝ) / 5000000000000000000000000) ≤ x - Circuit.f x / Circuit.df x ∧
      x - Circuit.f x / Circuit.df x ≤ ((48198842395425056856129 : ℝ) / 80000000000000000000000)) ∧
    (((1103146705564043659601547 : ℝ) / 50000000000000000000000000) ≤ Circuit.f x / Circuit.df x ∧
      Circuit.f x / Circuit.df x ≤ ((44125868222561772784279 : ℝ) / 2000000000000000000000000)) := by
  have hE1 : ((2968299948542225752238772375331789 : ℝ) / 100000000000000000000000) ≤ Real.exp (x / (Circuit.n * Circuit.Vt)) :=
    le_trans expLB_3 (exp_arg_mono hax)
  have hE2 : Real.exp (x / (Circuit.n * Circuit.Vt)) ≤ ((5936599897084471922012548837407697 : ℝ) / 200000000000000000000000) :=
    le_trans (exp_arg_mono hxb) expUB_3
  rw [Circuit.f, Circuit.df, Circuit.Vs, Circuit.R, Circuit.Is]
  rw [(by rw [Circuit.n, Circuit.Vt]; norm_num :
    Circuit.n * Circuit.Vt = 259 / 10000)] at hE1 hE2 ⊢
  revert hE1 hE2
  generalize Real.exp (x / (259 / 10000)) = E
  intro hE1 hE2
  have hD : -1000.0 * 1e-12 * (E / (259 / 10000)) - 1 < 0 := by
    have hEpos : (0 : ℝ) < E := lt_of_lt_of_le (by norm_num) hE1
    linarith
  refine ⟨⟨?_, ?_⟩, ?_, ?_⟩
  · rw [le_sub_comm, div_le_iff_of_neg hD]
    nlinarith [mul_nonneg (sub_nonneg.mpr hax) (sub_nonneg.mpr hE1),
      mul_nonneg (sub_nonneg.mpr hax) (sub_nonneg.mpr hE2),
      mul_nonneg (sub_nonneg.mpr hxb) (sub_nonneg.mpr hE1),
      mul_nonneg (sub_nonneg.mpr hxb) (sub_nonneg.mpr hE2)]
  · rw [sub_le_comm, le_div_iff_of_neg hD]
    nlinarith [mul_nonneg (sub_nonneg.mpr hax) (sub_nonneg.mpr hE1),
      mul_nonneg (sub_nonneg.mpr hax) (sub_nonneg.mpr hE2),
      mul_nonneg (sub_nonneg.mpr hxb) (sub_nonneg.mpr hE1),
      mul_nonneg (sub_nonneg.mpr hxb) (sub_nonneg.mpr hE2)]
  · rw [le_div_iff_of_neg hD]
    linarith
  · rw [div_le_iff_of_neg hD]
    linarith

/-- Interval propagation for Newton step 5 of the canonical run. -/
theorem nstep_4 (x : ℝ) (hax : ((3012427649714065902026979 : ℝ) / 5000000000000000000000000) ≤ x) (hxb : x ≤ ((48198842395425056856129 : ℝ) / 80000000000000000000000)) :
    (((585614045605728715708643 : ℝ) / 1000000000000000000000000) ≤ x - Circuit.f x / Circuit.df x ∧
      x - Circuit.f x / Circuit.df x ≤ ((1171228091211457540966133 : ℝ) / 2000000000000000000000000)) ∧
    (((421787108427111003917731 : ℝ) / 25000000000000000000000000) ≤ Circuit.f x / Circuit.df x ∧
      Circuit.f x / Circuit.df x ≤ ((337429686741689295171791 : ℝ) / 20000000000000000000000000)) := by
  have hE1 : ((12663498687201749548672589852250229 : ℝ) / 1000000000000000000000000) ≤ Real.exp (x / (Circuit.n * Circuit.Vt)) :=
    le_trans expLB_4 (exp_arg_mono hax)
  have hE2 : Real.exp (x / (Circuit.n * Circuit.Vt)) ≤ ((12663498687201784039214248498450761 : ℝ) / 1000000000000000000000000) :=
    le_trans (exp_arg_mono hxb) expUB_4
  rw [Circuit.f, Circuit.df, Circuit.Vs, Circuit.R, Circuit.Is]
  rw [(by rw [Circuit.n, Circuit.Vt]; norm_num :
    Circuit.n * Circuit.Vt = 259 / 10000)] at hE1 hE2 ⊢
  revert hE1 hE2
  generalize Real.exp (x / (259 / 10000)) = E
  intro hE1 hE2
  have hD : -1000.0 * 1e-12 * (E / (259 / 10000)) - 1 < 0 := by
    have hEpos : (0 : ℝ) < E := lt_of_lt_of_le (by norm_num) hE1
    linarith
  refine ⟨⟨?_, ?_⟩, ?_, ?_⟩
  · rw [le_sub_comm, div_le_iff_of_neg hD]
    nlinarith [mul_nonneg (sub_nonneg.mpr hax) (sub_nonneg.mpr hE1),
      mul_nonneg (sub_nonneg.mpr hax) (sub_nonneg.mpr hE2),
      mul_nonneg (sub_nonneg.mpr hxb) (sub_nonneg.mpr hE1),
      mul_nonneg (sub_nonneg.mpr hxb) (sub_nonneg.mpr hE2)]
  · rw [sub_le_comm, le_div_iff_of_neg hD]
    nlinarith [mul_nonneg (sub_nonneg.mpr hax) (sub_nonneg.mpr hE1),
      mul_nonneg (sub_nonneg.mpr hax) (sub_nonneg.mpr hE2),
      mul_nonneg (sub_nonneg.mpr hxb) (sub_nonneg.mpr hE1),
      mul_nonneg (sub_nonneg.mpr hxb) (sub_nonneg.mpr hE2)]
  · rw [le_div_iff_of_neg hD]
    linarith
  · rw [div_le_iff_of_neg hD]
    linarith

/-- Interval propagation for Newton step 6 of the canonical run. -/
theorem nstep_5 (x : ℝ) (hax : ((585614045605728715708643 : ℝ) / 1000000000000000000000000) ≤ x) (hxb : x ≤ ((1171228091211457540966133 : ℝ) / 2000000000000000000000000)) :
    (((721333062303387989800073 : ℝ) / 1250000000000000000000000) ≤ x - Circuit.f x / Circuit.df x ∧
      x - Circuit.f x / Circuit.df x ≤ ((2885332249213552499584277 : ℝ) / 5000000000000000000000000)) ∧
    (((8547595763018270352155557 : ℝ) / 1000000000000000000000000000) ≤ Circuit.f x / Circuit.df x ∧
      Circuit.f x / Circuit.df x ≤ ((2136898940754581020660039 : ℝ) / 250000000000000000000000000)) := by
  have hE1 : ((16504050016716771895530489605865623 : ℝ) / 2500000000000000000000000) ≤ Real.exp (x / (Circuit.n * Circuit.Vt)) :=
    le_trans expLB_5 (exp_arg_mono hax)
  have hE2 : Real.exp (x / (Circuit.n * Circuit.Vt)) ≤ ((66016200066867291981004805372297059 : ℝ) / 10000000000000000000000000) :=
    le_trans (exp_arg_mono hxb) expUB_5
  rw [Circuit.f, Circuit.df, Circuit.Vs, Circuit.R, Circuit.Is]
  rw [(by rw [Circuit.n, Circuit.Vt]; norm_num :
    Circuit.n * Circuit.Vt = 259 / 10000)] at hE1 hE2 ⊢
  revert hE1 hE2
  generalize Real.exp (x / (259 / 10000)) = E
  intro hE1 hE2
  have hD : -1000.0 * 1e-12 * (E / (259 / 10000)) - 1 < 0 := by
    have hEpos : (0 : ℝ) < E := lt_of_lt_of_le (by norm_num) hE1
    linarith
  refine ⟨⟨?_, ?_⟩, ?_, ?_⟩
  · rw [le_sub_comm, div_le_iff_of_neg hD]
    nlinarith [mul_nonneg (sub_nonneg.mpr hax) (sub_nonneg.mpr hE1),
      mul_nonneg (sub_nonneg.mpr hax) (sub_nonneg.mpr hE2),
      mul_nonneg (sub_nonneg.mpr hxb) (sub_nonneg.mpr hE1),
      mul_nonneg (sub_nonneg.mpr hxb) (sub_nonneg.mpr hE2)]
  · rw [sub_le_comm, le_div_iff_of_neg hD]
    nlinarith [mul_nonneg (sub_nonneg.mpr hax) (sub_nonneg.mpr hE1),
      mul_nonneg (sub_nonneg.mpr hax) (sub_nonneg.mpr hE2),
      mul_nonneg (sub_nonneg.mpr hxb) (sub_nonneg.mpr hE1),
      mul_nonneg (sub_nonneg.mpr hxb) (sub_nonneg.mpr hE2)]
  · rw [le_div_iff_of_neg hD]
    linarith
  · rw [div_le_iff_of_neg hD]
    linarith

/-- Interval propagation for Newton step 7 of the canonical run. -/
theorem nstep_6 (x : ℝ) (hax : ((721333062303387989800073 : ℝ) / 1250000000000000000000000) ≤ x) (hxb : x ≤ ((2885332249213552499584277 : ℝ) / 5000000000000000000000000)) :
    (((5753132141980752065901681 : ℝ) / 10000000000000000000000000) ≤ x - Circuit.f x / Circuit.df x ∧
      x - Circuit.f x / Circuit.df x ≤ ((5753132141980754328672697 : ℝ) / 10000000000000000000000000)) ∧
    (((876617822317533231490701 : ℝ) / 500000000000000000000000000) ≤ Circuit.f x / Circuit.df x ∧
      Circuit.f x / Circuit.df x ≤ ((876617822317592918247263 : ℝ) / 500000000000000000000000000)) := by
  have hE1 : ((47459521322039211979798018150503127 : ℝ) / 10000000000000000000000000) ≤ Real.exp (x / (Circuit.n * Circuit.Vt)) :=
    le_trans expLB_6 (exp_arg_mono hax)
  have hE2 : Real.exp (x / (Circuit.n * Circuit.Vt)) ≤ ((2966220082627465420308785756029149 : ℝ) / 625000000000000000000000) :=
    le_trans (exp_arg_mono hxb) expUB_6
  rw [Circuit.f, Circuit.df, Circuit.Vs, Circuit.R, Circuit.Is]
  rw [(by rw [Circuit.n, Circuit.Vt]; norm_num :
    Circuit.n * Circuit.Vt = 259 / 10000)] at hE1 hE2 ⊢
  revert hE1 hE2
  generalize Real.exp (x / (259 / 10000)) = E
  intro hE1 hE2
  have hD : -1000.0 * 1e-12 * (E / (259 / 10000)) - 1 < 0 := by
    have hEpos : (0 : ℝ) < E := lt_of_lt_of_le (by norm_num) hE1
    linarith
  refine ⟨⟨?_, ?_⟩, ?_, ?_⟩
  · rw [le_sub_comm, div_le_iff_of_neg hD]
    nlinarith [mul_nonneg (sub_nonneg.mpr hax) (sub_nonneg.mpr hE1),
      mul_nonneg (sub_nonneg.mpr hax) (sub_nonneg.mpr hE2),
      mul_nonneg (sub_nonneg.mpr hxb) (sub_nonneg.mpr hE1),
      mul_nonneg (sub_nonneg.mpr hxb) (sub_nonneg.mpr hE2)]
  · rw [sub_le_comm, le_div_iff_of_neg hD]
    nlinarith [mul_nonneg (sub_nonneg.mpr hax) (sub_nonneg.mpr hE1),
      mul_nonneg (sub_nonneg.mpr hax) (sub_nonneg.mpr hE2),
      mul_nonneg (sub_nonneg.mpr hxb) (sub_nonneg.mpr hE1),
      mul_nonneg (sub_nonneg.mpr hxb) (sub_nonneg.mpr hE2)]
  · rw [le_div_iff_of_neg hD]
    linarith
  · rw [div_le_iff_of_neg hD]
    linarith

/-- Interval propagation for Newton step 8 of the canonical run. -/
theorem nstep_7 (x : ℝ) (hax : ((5753132141980752065901681 : ℝ) / 10000000000000000000000000) ≤ x) (hxb : x ≤ ((5753132141980754328672697 : ℝ) / 10000000000000000000000000)) :
    (((5752514870462308052037981 : ℝ) / 10000000000000000000000000) ≤ x - Circuit.f x / Circuit.df x ∧
      x - Circuit.f x / Circuit.df x ≤ ((5752514870462312735051481 : ℝ) / 10000000000000000000000000)) ∧
    (((6172715184415804845007673 : ℝ) / 100000000000000000000000000000) ≤ Circuit.f x / Circuit.df x ∧
      Circuit.f x / Circuit.df x ≤ ((3086357592220135002075991 : ℝ) / 50000000000000000000000000000)) := by
  have hE1 : ((8870638311227682957225182124434241 : ℝ) / 2000000000000000000000000) ≤ Real.exp (x / (Circuit.n * Circuit.Vt)) :=
    le_trans expLB_7 (exp_arg_mono hax)
  have hE2 : Real.exp (x / (Circuit.n * Circuit.Vt)) ≤ ((44353191556138834931774052627453517 : ℝ) / 10000000000000000000000000) :=
    le_trans (exp_arg_mono hxb) expUB_7
  rw [Circuit.f, Circuit.df, Circuit.Vs, Circuit.R, Circuit.Is]
  rw [(by rw [Circuit.n, Circuit.Vt]; norm_num :
    Circuit.n * Circuit.Vt = 259 / 10000)] at hE1 hE2 ⊢
  revert hE1 hE2
  generalize Real.exp (x / (259 / 10000)) = E
  intro hE1 hE2
  have hD : -1000.0 * 1e-12 * (E / (259 / 10000)) - 1 < 0 := by
    have hEpos : (0 : ℝ) < E := lt_of_lt_of_le (by norm_num) hE1
    linarith
  refine ⟨⟨?_, ?_⟩, ?_, ?_⟩
  · rw [le_sub_comm, div_le_iff_of_neg hD]
    nlinarith [mul_nonneg (sub_nonneg.mpr hax) (sub_nonneg.mpr hE1),
      mul_nonneg (sub_nonneg.mpr hax) (sub_nonneg.mpr hE2),
      mul_nonneg (sub_nonneg.mpr hxb) (sub_nonneg.mpr hE1),
      mul_nonneg (sub_nonneg.mpr hxb) (sub_nonneg.mpr hE2)]
  · rw [sub_le_comm, le_div_iff_of_neg hD]
    nlinarith [mul_nonneg (sub_nonneg.mpr hax) (sub_nonneg.mpr hE1),
      mul_nonneg (sub_nonneg.mpr hax) (sub_nonneg.mpr hE2),
      mul_nonneg (sub_nonneg.mpr hxb) (sub_nonneg.mpr hE1),
      mul_nonneg (sub_nonneg.mpr hxb) (sub_nonneg.mpr hE2)]
  · rw [le_div_iff_of_neg hD]
    linarith
  · rw [div_le_iff_of_neg hD]
    linarith

/-- Interval propagation for Newton step 9 of the canonical run. -/
theorem nstep_8 (x : ℝ) (hax : ((5752514870462308052037981 : ℝ) / 10000000000000000000000000) ≤ x) (hxb : x ≤ ((5752514870462312735051481 : ℝ) / 10000000000000000000000000)) :
    (((2876257069006037464181071 : ℝ) / 5000000000000000000000000) ≤ x - Circuit.f x / Circuit.df x ∧
      x - Circuit.f x / Circuit.df x ≤ ((5752514138012084429097383 : ℝ) / 10000000000000000000000000)) ∧
    (((7324502282787019562025407 : ℝ) / 100000000000000000000000000000000) ≤ Circuit.f x / Circuit.df x ∧
      Circuit.f x / Circuit.df x ≤ ((3662251165754639904389689 : ℝ) / 50000000000000000000000000000000)) := by
  have hE1 : ((44247611003929158122866705032246229 : ℝ) / 10000000000000000000000000) ≤ Real.exp (x / (Circuit.n * Circuit.Vt)) :=
    le_trans expLB_8 (exp_arg_mono hax)
  have hE2 : Real.exp (x / (Circuit.n * Circuit.Vt)) ≤ ((44247611003929990686487239263971153 : ℝ) / 10000000000000000000000000) :=
    le_trans (exp_arg_mono hxb) expUB_8
  rw [Circuit.f, Circuit.df, Circuit.Vs, Circuit.R, Circuit.Is]
  rw [(by rw [Circuit.n, Circuit.Vt]; norm_num :
    Circuit.n * Circuit.Vt = 259 / 10000)] at hE1 hE2 ⊢
  revert hE1 hE2
  generalize Real.exp (x / (259 / 10000)) = E
  intro hE1 hE2
  have hD : -1000.0 * 1e-12 * (E / (259 / 10000)) - 1 < 0 := by
    have hEpos : (0 : ℝ) < E := lt_of_lt_of_le (by norm_num) hE1
    linarith
  refine ⟨⟨?_, ?_⟩, ?_, ?_⟩
  · rw [le_sub_comm, div_le_iff_of_neg hD]
    nlinarith [mul_nonneg (sub_nonneg.mpr hax) (sub_nonneg.mpr hE1),
      mul_nonneg (sub_nonneg.mpr hax) (sub_nonneg.mpr hE2),
      mul_nonneg (sub_nonneg.mpr hxb) (sub_nonneg.mpr hE1),
      mul_nonneg (sub_nonneg.mpr hxb) (sub_nonneg.mpr hE2)]
  · rw [sub_le_comm, le_div_iff_of_neg hD]
    nlinarith [mul_nonneg (sub_nonneg.mpr hax) (sub_nonneg.mpr hE1),
      mul_nonneg (sub_nonneg.mpr hax) (sub_nonneg.mpr hE2),
      mul_nonneg (sub_nonneg.mpr hxb) (sub_nonneg.mpr hE1),
      mul_nonneg (sub_nonneg.mpr hxb) (sub_nonneg.mpr hE2)]
  · rw [le_div_iff_of_neg hD]
    linarith
  · rw [div_le_iff_of_neg hD]
    linarith

/-- The seed of the canonical run. -/
theorem bnd_0 : (7 : ℝ) / 10 ≤ xseq 0 ∧ xseq 0 ≤ (7 : ℝ) / 10 := by
  rw [show xseq 0 = Circuit.x0 from rfl, Circuit.x0]
  norm_num

/-- Delta bounds for Newton step 1 of the canonical run. -/
theorem dlem_0 : ((1284752050724533291203951 : ℝ) / 50000000000000000000000000) ≤ Circuit.f (xseq 0) / Circuit.df (xseq 0) ∧
    Circuit.f (xseq 0) / Circuit.df (xseq 0) ≤ ((160594006340566683691029 : ℝ) / 6250000000000000000000000) :=
  (nstep_0 (xseq 0) bnd_0.1 bnd_0.2).2

/-- Interval bounds on iterate 1 of the canonical run. -/
theorem bnd_1 : ((6743049589855093306094353 : ℝ) / 10000000000000000000000000) ≤ xseq 1 ∧ xseq 1 ≤ ((674304958985509334175921 : ℝ) / 1000000000000000000000000) :=
  (nstep_0 (xseq 0) bnd_0.1 bnd_0.2).1

/-- The step-1 change of the canonical run equals the Newton quotient. -/
theorem dabs_0 : |xseq 1 - xseq 0| = Circuit.f (xseq 0) / Circuit.df (xseq 0) := by
  have h : xseq 1 - xseq 0 = -(Circuit.f (xseq 0) / Circuit.df (xseq 0)) := by
    rw [show xseq 1 = xseq 0 - Circuit.f (xseq 0) / Circuit.df (xseq 0) from rfl]
    ring
  rw [h, abs_neg, abs_of_nonneg (le_trans (by norm_num) dlem_0.1)]

/-- Delta bounds for Newton step 2 of the canonical run. -/
theorem dlem_1 : ((1267200834830886718993219 : ℝ) / 50000000000000000000000000) ≤ Circuit.f (xseq 1) / Circuit.df (xseq 1) ∧
    Circuit.f (xseq 1) / Circuit.df (xseq 1) ≤ ((1267200834830886988212073 : ℝ) / 50000000000000000000000000) :=
  (nstep_1 (xseq 1) bnd_1.1 bnd_1.2).2

/-- Interval bounds on iterate 2 of the canonical run. -/
theorem bnd_2 : ((1297921884577783181691299 : ℝ) / 2000000000000000000000000) ≤ xseq 2 ∧ xseq 2 ≤ ((648960942288891599795601 : ℝ) / 1000000000000000000000000) :=
  (nstep_1 (xseq 1) bnd_1.1 bnd_1.2).1

/-- The step-2 change of the canonical run equals the Newton quotient. -/
theorem dabs_1 : |xseq 2 - xseq 1| = Circuit.f (xseq 1) / Circuit.df (xseq 1) := by
  have h : xseq 2 - xseq 1 = -(Circuit.f (xseq 1) / Circuit.df (xseq 1)) := by
    rw [show xseq 2 = xseq 1 - Circuit.f (xseq 1) / Circuit.df (xseq 1) from rfl]
    ring
  rw [h, abs_neg, abs_of_nonneg (le_trans (by norm_num) dlem_1.1)]

/-- Delta bounds for Newton step 3 of the canonical run. -/
theorem dlem_2 : ((1220623911739875794199281 : ℝ) / 50000000000000000000000000) ≤ Circuit.f (xseq 2) / Circuit.df (xseq 2) ∧
    Circuit.f (xseq 2) / Circuit.df (xseq 2) ≤ ((2441247823479752406608599 : ℝ) / 100000000000000000000000000) :=
  (nstep_2 (xseq 2) bnd_2.1 bnd_2.2).2

/-- Interval bounds on iterate 3 of the canonical run. -/
theorem bnd_3 : ((6245484640540940667826051 : ℝ) / 10000000000000000000000000) ≤ xseq 3 ∧ xseq 3 ≤ ((6245484640540940839085737 : ℝ) / 10000000000000000000000000) :=
  (nstep_2 (xseq 2) bnd_2.1 bnd_2.2).1

/-- The step-3 change of the canonical run equals the Newton quotient. -/
theorem dabs_2 : |xseq 3 - xseq 2| = Circuit.f (xseq 2) / Circuit.df (xseq 2) := by
  have h : xseq 3 - xseq 2 = -(Circuit.f (xseq 2) / Circuit.df (xseq 2)) := by
    rw [show xseq 3 = xseq 2 - Circuit.f (xseq 2) / Circuit.df (xseq 2) from rfl]
    ring
  rw [h, abs_neg, abs_of_nonneg (le_trans (by norm_num) dlem_2.1)]

/-- Delta bounds for Newton step 4 of the canonical run. -/
theorem dlem_3 : ((1103146705564043659601547 : ℝ) / 50000000000000000000000000) ≤ Circuit.f (xseq 3) / Circuit.df (xseq 3) ∧
    Circuit.f (xseq 3) / Circuit.df (xseq 3) ≤ ((44125868222561772784279 : ℝ) / 2000000000000000000000000) :=
  (nstep_3 (xseq 3) bnd_3.1 bnd_3.2).2

/-- Interval bounds on iterate 4 of the canonical run. -/
theorem bnd_4 : ((3012427649714065902026979 : ℝ) / 5000000000000000000000000) ≤ xseq 4 ∧ xseq 4 ≤ ((48198842395425056856129 : ℝ) / 80000000000000000000000) :=
  (nstep_3 (xseq 3) bnd_3.1 bnd_3.2).1

/-- The step-4 change of the canonical run equals the Newton quotient. -/
theorem dabs_3 : |xseq 4 - xseq 3| = Circuit.f (xseq 3) / Circuit.df (xseq 3) := by
  have h : xseq 4 - xseq 3 = -(Circuit.f (xseq 3) / Circuit.df (xseq 3)) := by
    rw [show xseq 4 = xseq 3 - Circuit.f (xseq 3) / Circuit.df (xseq 3) from rfl]
    ring
  rw [h, abs_neg, abs_of_nonneg (le_trans (by norm_num) dlem_3.1)]

/-- Delta bounds for Newton step 5 of the canonical run. -/
theorem dlem_4 : ((421787108427111003917731 : ℝ) / 25000000000000000000000000) ≤ Circuit.f (xseq 4) / Circuit.df (xseq 4) ∧
    Circuit.f (xseq 4) / Circuit.df (xseq 4) ≤ ((337429686741689295171791 : ℝ) / 20000000000000000000000000) :=
  (nstep_4 (xseq 4) bnd_4.1 bnd_4.2).2

/-- Interval bounds on iterate 5 of the canonical run. -/
theorem bnd_5 : ((585614045605728715708643 : ℝ) / 1000000000000000000000000) ≤ xseq 5 ∧ xseq 5 ≤ ((1171228091211457540966133 : ℝ) / 2000000000000000000000000) :=
  (nstep_4 (xseq 4) bnd_4.1 bnd_4.2).1

/-- The step-5 change of the canonical run equals the Newton quotient. -/
theorem dabs_4 : |xseq 5 - xseq 4| = Circuit.f (xseq 4) / Circuit.df (xseq 4) := by
  have h : xseq 5 - xseq 4 = -(Circuit.f (xseq 4) / Circuit.df (xseq 4)) := by
    rw [show xseq 5 = xseq 4 - Circuit.f (xseq 4) / Circuit.df (xseq 4) from rfl]
    ring
  rw [h, abs_neg, abs_of_nonneg (le_trans (by norm_num) dlem_4.1)]

/-- Delta bounds for Newton step 6 of the canonical run. -/
theorem dlem_5 : ((8547595763018270352155557 : ℝ) / 1000000000000000000000000000) ≤ Circuit.f (xseq 5) / Circuit.df (xseq 5) ∧
    Circuit.f (xseq 5) / Circuit.df (xseq 5) ≤ ((2136898940754581020660039 : ℝ) / 250000000000000000000000000) :=
  (nstep_5 (xseq 5) bnd_5.1 bnd_5.2).2

/-- Interval bounds on iterate 6 of the canonical run. -/
theorem bnd_6 : ((721333062303387989800073 : ℝ) / 1250000000000000000000000) ≤ xseq 6 ∧ xseq 6 ≤ ((2885332249213552499584277 : ℝ) / 5000000000000000000000000) :=
  (nstep_5 (xseq 5) bnd_5.1 bnd_5.2).1

/-- The step-6 change of the canonical run equals the Newton quotient. -/
theorem dabs_5 : |xseq 6 - xseq 5| = Circuit.f (xseq 5) / Circuit.df (xseq 5) := by
  have h : xseq 6 - xseq 5 = -(Circuit.f (xseq 5) / Circuit.df (xseq 5)) := by
    rw [show xseq 6 = xseq 5 - Circuit.f (xseq 5) / Circuit.df (xseq 5) from rfl]
    ring
  rw [h, abs_neg, abs_of_nonneg (le_trans (by norm_num) dlem_5.1)]

/-- Delta bounds for Newton step 7 of the canonical run. -/
theorem dlem_6 : ((876617822317533231490701 : ℝ) / 500000000000000000000000000) ≤ Circuit.f (xseq 6) / Circuit.df (xseq 6) ∧
    Circuit.f (xseq 6) / Circuit.df (xseq 6) ≤ ((876617822317592918247263 : ℝ) / 500000000000000000000000000) :=
  (nstep_6 (xseq 6) bnd_6.1 bnd_6.2).2

/-- Interval bounds on iterate 7 of the canonical run. -/
theorem bnd_7 : ((5753132141980752065901681 : ℝ) / 10000000000000000000000000) ≤ xseq 7 ∧ xseq 7 ≤ ((5753132141980754328672697 : ℝ) / 10000000000000000000000000) :=
  (nstep_6 (xseq 6) bnd_6.1 bnd_6.2).1

/-- The step-7 change of the canonical run equals the Newton quotient. -/
theorem dabs_6 : |xseq 7 - xseq 6| = Circuit.f (xseq 6) / Circuit.df (xseq 6) := by
  have h : xseq 7 - xseq 6 = -(Circuit.f (xseq 6) / Circuit.df (xseq 6)) := by
    rw [show xseq 7 = xseq 6 - Circuit.f (xseq 6) / Circuit.df (xseq 6) from rfl]
    ring
  rw [h, abs_neg, abs_of_nonneg (le_trans (by norm_num) dlem_6.1)]

/-- Delta bounds for Newton step 8 of the canonical run. -/
theorem dlem_7 : ((6172715184415804845007673 : ℝ) / 100000000000000000000000000000) ≤ Circuit.f (xseq 7) / Circuit.df (xseq 7) ∧
    Circuit.f (xseq 7) / Circuit.df (xseq 7) ≤ ((3086357592220135002075991 : ℝ) / 50000000000000000000000000000) :=
  (nstep_7 (xseq 7) bnd_7.1 bnd_7.2).2

/-- Interval bounds on iterate 8 of the canonical run. -/
theorem bnd_8 : ((5752514870462308052037981 : ℝ) / 10000000000000000000000000) ≤ xseq 8 ∧ xseq 8 ≤ ((5752514870462312735051481 : ℝ) / 10000000000000000000000000) :=
  (nstep_7 (xseq 7) bnd_7.1 bnd_7.2).1

/-- The step-8 change of the canonical run equals the Newton quotient. -/
theorem dabs_7 : |xseq 8 - xseq 7| = Circuit.f (xseq 7) / Circuit.df (xseq 7) := by
  have h : xseq 8 - xseq 7 = -(Circuit.f (xseq 7) / Circuit.df (xseq 7)) := by
    rw [show xseq 8 = xseq 7 - Circuit.f (xseq 7) / Circuit.df (xseq 7) from rfl]
    ring
  rw [h, abs_neg, abs_of_nonneg (le_trans (by norm_num) dlem_7.1)]

/-- Delta bounds for Newton step 9 of the canonical run. -/
theorem dlem_8 : ((7324502282787019562025407 : ℝ) / 100000000000000000000000000000000) ≤ Circuit.f (xseq 8) / Circuit.df (xseq 8) ∧
    Circuit.f (xseq 8) / Circuit.df (xseq 8) ≤ ((3662251165754639904389689 : ℝ) / 50000000000000000000000000000000) :=
  (nstep_8 (xseq 8) bnd_8.1 bnd_8.2).2

/-- Interval bounds on iterate 9 of the canonical run. -/
theorem bnd_9 : ((2876257069006037464181071 : ℝ) / 5000000000000000000000000) ≤ xseq 9 ∧ xseq 9 ≤ ((5752514138012084429097383 : ℝ) / 10000000000000000000000000) :=
  (nstep_8 (xseq 8) bnd_8.1 bnd_8.2).1

/-- The step-9 change of the canonical run equals the Newton quotient. -/
theorem dabs_8 : |xseq 9 - xseq 8| = Circuit.f (xseq 8) / Circuit.df (xseq 8) := by
  have h : xseq 9 - xseq 8 = -(Circuit.f (xseq 8) / Circuit.df (xseq 8)) := by
    rw [show xseq 9 = xseq 8 - Circuit.f (xseq 8) / Circuit.df (xseq 8) from rfl]
    ring
  rw [h, abs_neg, abs_of_nonneg (le_trans (by norm_num) dlem_8.1)]

/-- Pass 1 of the canonical run does not yet meet the tolerance. -/
theorem notConv_0 :
    ¬|(xseq 0 - Circuit.f (xseq 0) / Circuit.df (xseq 0)) - xseq 0| < Circuit.tolerance := by
  rw [show xseq 0 - Circuit.f (xseq 0) / Circuit.df (xseq 0) = xseq 1 from rfl,
    dabs_0, Circuit.tolerance]
  exact not_lt.mpr (le_trans (by norm_num) dlem_0.1)

/-- Pass 2 of the canonical run does not yet meet the tolerance. -/
theorem notConv_1 :
    ¬|(xseq 1 - Circuit.f (xseq 1) / Circuit.df (xseq 1)) - xseq 1| < Circuit.tolerance := by
  rw [show xseq 1 - Circuit.f (xseq 1) / Circuit.df (xseq 1) = xseq 2 from rfl,
    dabs_1, Circuit.tolerance]
  exact not_lt.mpr (le_trans (by norm_num) dlem_1.1)

/-- Pass 3 of the canonical run does not yet meet the tolerance. -/
theorem notConv_2 :
    ¬|(xseq 2 - Circuit.f (xseq 2) / Circuit.df (xseq 2)) - xseq 2| < Circuit.tolerance := by
  rw [show xseq 2 - Circuit.f (xseq 2) / Circuit.df (xseq 2) = xseq 3 from rfl,
    dabs_2, Circuit.tolerance]
  exact not_lt.mpr (le_trans (by norm_num) dlem_2.1)

/-- Pass 4 of the canonical run does not yet meet the tolerance. -/
theorem notConv_3 :
    ¬|(xseq 3 - Circuit.f (xseq 3) / Circuit.df (xseq 3)) - xseq 3| < Circuit.tolerance := by
  rw [show xseq 3 - Circuit.f (xseq 3) / Circuit.df (xseq 3) = xseq 4 from rfl,
    dabs_3, Circuit.tolerance]
  exact not_lt.mpr (le_trans (by norm_num) dlem_3.1)

/-- Pass 5 of the canonical run does not yet meet the tolerance. -/
theorem notConv_4 :
    ¬|(xseq 4 - Circuit.f (xseq 4) / Circuit.df (xseq 4)) - xseq 4| < Circuit.tolerance := by
  rw [show xseq 4 - Circuit.f (xseq 4) / Circuit.df (xseq 4) = xseq 5 from rfl,
    dabs_4, Circuit.tolerance]
  exact not_lt.mpr (le_trans (by norm_num) dlem_4.1)

/-- Pass 6 of the canonical run does not yet meet the tolerance. -/
theorem notConv_5 :
    ¬|(xseq 5 - Circuit.f (xseq 5) / Circuit.df (xseq 5)) - xseq 5| < Circuit.tolerance := by
  rw [show xseq 5 - Circuit.f (xseq 5) / Circuit.df (xseq 5) = xseq 6 from rfl,
    dabs_5, Circuit.tolerance]
  exact not_lt.mpr (le_trans (by norm_num) dlem_5.1)

/-- Pass 7 of the canonical run does not yet meet the tolerance. -/
theorem notConv_6 :
    ¬|(xseq 6 - Circuit.f (xseq 6) / Circuit.df (xseq 6)) - xseq 6| < Circuit.tolerance := by
  rw [show xseq 6 - Circuit.f (xseq 6) / Circuit.df (xseq 6) = xseq 7 from rfl,
    dabs_6, Circuit.tolerance]
  exact not_lt.mpr (le_trans (by norm_num) dlem_6.1)

/-- Pass 8 of the canonical run does not yet meet the tolerance. -/
theorem notConv_7 :
    ¬|(xseq 7 - Circuit.f (xseq 7) / Circuit.df (xseq 7)) - xseq 7| < Circuit.tolerance := by
  rw [show xseq 7 - Circuit.f (xseq 7) / Circuit.df (xseq 7) = xseq 8 from rfl,
    dabs_7, Circuit.tolerance]
  exact not_lt.mpr (le_trans (by norm_num) dlem_7.1)

/-- Pass 9 of the canonical run meets the tolerance. -/
theorem conv_8 :
    |(xseq 8 - Circuit.f (xseq 8) / Circuit.df (xseq 8)) - xseq 8| < Circuit.tolerance := by
  rw [show xseq 8 - Circuit.f (xseq 8) / Circuit.df (xseq 8) = xseq 9 from rfl,
    dabs_8, Circuit.tolerance]
  exact lt_of_le_of_lt dlem_8.2 (by norm_num)

/-- Pass 1 of the canonical run, unfolded. -/
theorem canonStep_1 :
    Circuit.run = solveGo Circuit.f Circuit.df Circuit.tolerance 19 1
      (⟨xseq 1, [⟨1, xseq 1, |xseq 1 - xseq 0|⟩],
      [xseq 0, xseq 1], false⟩ : SolveState ℝ) := by
  rw [Circuit.run, Circuit.maxIter, solve, show Circuit.x0 = xseq 0 from rfl,
    show (20 : ℕ) = 19 + 1 from rfl, solveGo_succ]
  dsimp only
  rw [if_neg notConv_0]
  rfl

/-- Pass 2 of the canonical run, unfolded. -/
theorem canonStep_2 :
    solveGo Circuit.f Circuit.df Circuit.tolerance 19 1
      (⟨xseq 1, [⟨1, xseq 1, |xseq 1 - xseq 0|⟩],
      [xseq 0, xseq 1], false⟩ : SolveState ℝ)
      = solveGo Circuit.f Circuit.df Circuit.tolerance 18 2
      (⟨xseq 2, [⟨1, xseq 1, |xseq 1 - xseq 0|⟩,
      ⟨2, xseq 2, |xseq 2 - xseq 1|⟩],
      [xseq 0, xseq 1, xseq 2], false⟩ : SolveState ℝ) := by
  rw [show (19 : ℕ) = 18 + 1 from rfl, solveGo_succ]
  dsimp only
  rw [if_neg notConv_1]
  rfl

/-- Pass 3 of the canonical run, unfolded. -/
theorem canonStep_3 :
    solveGo Circuit.f Circuit.df Circuit.tolerance 18 2
      (⟨xseq 2, [⟨1, xseq 1, |xseq 1 - xseq 0|⟩,
      ⟨2, xseq 2, |xseq 2 - xseq 1|⟩],
      [xseq 0, xseq 1, xseq 2], false⟩ : SolveState ℝ)
      = solveGo Circuit.f Circuit.df Circuit.tolerance 17 3
      (⟨xseq 3, [⟨1, xseq 1, |xseq 1 - xseq 0|⟩,
      ⟨2, xseq 2, |xseq 2 - xseq 1|⟩,
      ⟨3, xseq 3, |xseq 3 - xseq 2|⟩],
      [xseq 0, xseq 1, xseq 2, xseq 3], false⟩ : SolveState ℝ) := by
  rw [show (18 : ℕ) = 17 + 1 from rfl, solveGo_succ]
  dsimp only
  rw [if_neg notConv_2]
  rfl

/-- Pass 4 of the canonical run, unfolded. -/
theorem canonStep_4 :
    solveGo Circuit.f Circuit.df Circuit.tolerance 17 3
      (⟨xseq 3, [⟨1, xseq 1, |xseq 1 - xseq 0|⟩,
      ⟨2, xseq 2, |xseq 2 - xseq 1|⟩,
      ⟨3, xseq 3, |xseq 3 - xseq 2|⟩],
      [xseq 0, xseq 1, xseq 2, xseq 3], false⟩ : SolveState ℝ)
      = solveGo Circuit.f Circuit.df Circuit.tolerance 16 4
      (⟨xseq 4, [⟨1, xseq 1, |xseq 1 - xseq 0|⟩,
      ⟨2, xseq 2, |xseq 2 - xseq 1|⟩,
      ⟨3, xseq 3, |xseq 3 - xseq 2|⟩,
      ⟨4, xseq 4, |xseq 4 - xseq 3|⟩],
      [xseq 0, xseq 1, xseq 2, xseq 3, xseq 4], false⟩ : SolveState ℝ) := by
  rw [show (17 : ℕ) = 16 + 1 from rfl, solveGo_succ]
  dsimp only
  rw [if_neg notConv_3]
  rfl

/-- Pass 5 of the canonical run, unfolded. -/
theorem canonStep_5 :
    solveGo Circuit.f Circuit.df Circuit.tolerance 16 4
      (⟨xseq 4, [⟨1, xseq 1, |xseq 1 - xseq 0|⟩,
      ⟨2, xseq 2, |xseq 2 - xseq 1|⟩,
      ⟨3, xseq 3, |xseq 3 - xseq 2|⟩,
      ⟨4, xseq 4, |xseq 4 - xseq 3|⟩],
      [xseq 0, xseq 1, xseq 2, xseq 3, xseq 4], false⟩ : SolveState ℝ)
      = solveGo Circuit.f Circuit.df Circuit.tolerance 15 5
      (⟨xseq 5, [⟨1, xseq 1, |xseq 1 - xseq 0|⟩,
      ⟨2, xseq 2, |xseq 2 - xseq 1|⟩,
      ⟨3, xseq 3, |xseq 3 - xseq 2|⟩,
      ⟨4, xseq 4, |xseq 4 - xseq 3|⟩,
      ⟨5, xseq 5, |xseq 5 - xseq 4|⟩],
      [xseq 0, xseq 1, xseq 2, xseq 3, xseq 4, xseq 5], false⟩ : SolveState ℝ) := by
  rw [show (16 : ℕ) = 15 + 1 from rfl, solveGo_succ]
  dsimp only
  rw [if_neg notConv_4]
  rfl

/-- Pass 6 of the canonical run, unfolded. -/
theorem canonStep_6 :
    solveGo Circuit.f Circuit.df Circuit.tolerance 15 5
      (⟨xseq 5, [⟨1, xseq 1, |xseq 1 - xseq 0|⟩,
      ⟨2, xseq 2, |xseq 2 - xseq 1|⟩,
      ⟨3, xseq 3, |xseq 3 - xseq 2|⟩,
      ⟨4, xseq 4, |xseq 4 - xseq 3|⟩,
      ⟨5, xseq 5, |xseq 5 - xseq 4|⟩],
      [xseq 0, xseq 1, xseq 2, xseq 3, xseq 4, xseq 5], false⟩ : SolveState ℝ)
      = solveGo Circuit.f Circuit.df Circuit.tolerance 14 6
      (⟨xseq 6, [⟨1, xseq 1, |xseq 1 - xseq 0|⟩,
      ⟨2, xseq 2, |xseq 2 - xseq 1|⟩,
      ⟨3, xseq 3, |xseq 3 - xseq 2|⟩,
      ⟨4, xseq 4, |xseq 4 - xseq 3|⟩,
      ⟨5, xseq 5, |xseq 5 - xseq 4|⟩,
      ⟨6, xseq 6, |xseq 6 - xseq 5|⟩],
      [xseq 0, xseq 1, xseq 2, xseq 3, xseq 4, xseq 5, xseq 6], false⟩ : SolveState ℝ) := by
  rw [show (15 : ℕ) = 14 + 1 from rfl, solveGo_succ]
  dsimp only
  rw [if_neg notConv_5]
  rfl

/-- Pass 7 of the canonical run, unfolded. -/
theorem canonStep_7 :
    solveGo Circuit.f Circuit.df Circuit.tolerance 14 6
      (⟨xseq 6, [⟨1, xseq 1, |xseq 1 - xseq 0|⟩,
      ⟨2, xseq 2, |xseq 2 - xseq 1|⟩,
      ⟨3, xseq 3, |xseq 3 - xseq 2|⟩,
      ⟨4, xseq 4, |xseq 4 - xseq 3|⟩,
      ⟨5, xseq 5, |xseq 5 - xseq 4|⟩,
      ⟨6, xseq 6, |xseq 6 - xseq 5|⟩],
      [xseq 0, xseq 1, xseq 2, xseq 3, xseq 4, xseq 5, xseq 6], false⟩ : SolveState ℝ)
      = solveGo Circuit.f Circuit.df Circuit.tolerance 13 7
      (⟨xseq 7, [⟨1, xseq 1, |xseq 1 - xseq 0|⟩,
      ⟨2, xseq 2, |xseq 2 - xseq 1|⟩,
      ⟨3, xseq 3, |xseq 3 - xseq 2|⟩,
      ⟨4, xseq 4, |xseq 4 - xseq 3|⟩,
      ⟨5, xseq 5, |xseq 5 - xseq 4|⟩,
      ⟨6, xseq 6, |xseq 6 - xseq 5|⟩,
      ⟨7, xseq 7, |xseq 7 - xseq 6|⟩],
      [xseq 0, xseq 1, xseq 2, xseq 3, xseq 4, xseq 5, xseq 6, xseq 7], false⟩ : SolveState ℝ) := by
  rw [show (14 : ℕ) = 13 + 1 from rfl, solveGo_succ]
  dsimp only
  rw [if_neg notConv_6]
  rfl

/-- Pass 8 of the canonical run, unfolded. -/
theorem canonStep_8 :
    solveGo Circuit.f Circuit.df Circuit.tolerance 13 7
      (⟨xseq 7, [⟨1, xseq 1, |xseq 1 - xseq 0|⟩,
      ⟨2, xseq 2, |xseq 2 - xseq 1|⟩,
      ⟨3, xseq 3, |xseq 3 - xseq 2|⟩,
      ⟨4, xseq 4, |xseq 4 - xseq 3|⟩,
      ⟨5, xseq 5, |xseq 5 - xseq 4|⟩,
      ⟨6, xseq 6, |xseq 6 - xseq 5|⟩,
      ⟨7, xseq 7, |xseq 7 - xseq 6|⟩],
      [xseq 0, xseq 1, xseq 2, xseq 3, xseq 4, xseq 5, xseq 6, xseq 7], false⟩ : SolveState ℝ)
      = solveGo Circuit.f Circuit.df Circuit.tolerance 12 8
      (⟨xseq 8, [⟨1, xseq 1, |xseq 1 - xseq 0|⟩,
      ⟨2, xseq 2, |xseq 2 - xseq 1|⟩,
      ⟨3, xseq 3, |xseq 3 - xseq 2|⟩,
      ⟨4, xseq 4, |xseq 4 - xseq 3|⟩,
      ⟨5, xseq 5, |xseq 5 - xseq 4|⟩,
      ⟨6, xseq 6, |xseq 6 - xseq 5|⟩,
      ⟨7, xseq 7, |xseq 7 - xseq 6|⟩,
      ⟨8, xseq 8, |xseq 8 - xseq 7|⟩],
      [xseq 0, xseq 1, xseq 2, xseq 3, xseq 4, xseq 5, xseq 6, xseq 7, xseq 8], false⟩ : SolveState ℝ) := by
  rw [show (13 : ℕ) = 12 + 1 from rfl, solveGo_succ]
  dsimp only
  rw [if_neg notConv_7]
  rfl

/-- Pass 9 of the canonical run converges and stops. -/
theorem canonStep_9 :
    solveGo Circuit.f Circuit.df Circuit.tolerance 12 8
      (⟨xseq 8, [⟨1, xseq 1, |xseq 1 - xseq 0|⟩,
      ⟨2, xseq 2, |xseq 2 - xseq 1|⟩,
      ⟨3, xseq 3, |xseq 3 - xseq 2|⟩,
      ⟨4, xseq 4, |xseq 4 - xseq 3|⟩,
      ⟨5, xseq 5, |xseq 5 - xseq 4|⟩,
      ⟨6, xseq 6, |xseq 6 - xseq 5|⟩,
      ⟨7, xseq 7, |xseq 7 - xseq 6|⟩,
      ⟨8, xseq 8, |xseq 8 - xseq 7|⟩],
      [xseq 0, xseq 1, xseq 2, xseq 3, xseq 4, xseq 5, xseq 6, xseq 7, xseq 8], false⟩ : SolveState ℝ)
      = canonState := by
  rw [show (12 : ℕ) = 11 + 1 from rfl, solveGo_succ]
  dsimp only
  rw [if_pos conv_8, canonState]
  rfl

/-- The canonical solve, evaluated: it stops after 9 passes with the
convergence break taken. -/
theorem canonical_run_eq : Circuit.run = canonState :=
  canonStep_1.trans (canonStep_2.trans (canonStep_3.trans (canonStep_4.trans (canonStep_5.trans (canonStep_6.trans (canonStep_7.trans (canonStep_8.trans canonStep_9)))))))

theorem reclem_0 : recAt canonState 0
    = ⟨1, xseq 1, |xseq 1 - xseq 0|⟩ := rfl

theorem reclem_1 : recAt canonState 1
    = ⟨2, xseq 2, |xseq 2 - xseq 1|⟩ := rfl

theorem reclem_2 : recAt canonState 2
    = ⟨3, xseq 3, |xseq 3 - xseq 2|⟩ := rfl

theorem reclem_3 : recAt canonState 3
    = ⟨4, xseq 4, |xseq 4 - xseq 3|⟩ := rfl

theorem reclem_4 : recAt canonState 4
    = ⟨5, xseq 5, |xseq 5 - xseq 4|⟩ := rfl

theorem reclem_5 : recAt canonState 5
    = ⟨6, xseq 6, |xseq 6 - xseq 5|⟩ := rfl

theorem reclem_6 : recAt canonState 6
    = ⟨7, xseq 7, |xseq 7 - xseq 6|⟩ := rfl

theorem reclem_7 : recAt canonState 7
    = ⟨8, xseq 8, |xseq 8 - xseq 7|⟩ := rfl

theorem reclem_8 : recAt canonState 8
    = ⟨9, xseq 9, |xseq 9 - xseq 8|⟩ := rfl

/-- C1: with the canonical parameters (Vs=5, R=1000, Is=1e-12, n=1,
Vt=0.0259, x0=0.7, tolerance=1e-6, max_iterations=20) the solve converges
(a delta falls below the tolerance) in fewer than 20 iterations, the final
diode voltage lies in (0.55, 0.62), and the KVL residual
`|Vs - I*R - Vd_final|` with `I = Is*(exp(Vd_final/(n*Vt)) - 1)` is below
`1e-6`. -/
theorem canonical_convergence :
    Circuit.run.converged = true ∧
    Circuit.run.results.length < 20 ∧
    (0.55 : ℝ) < Circuit.run.x ∧ Circuit.run.x < (0.62 : ℝ) ∧
    |Circuit.Vs - Circuit.I * Circuit.R - Circuit.run.x| < 1e-6 := by
  refine ⟨?_, ?_, ?_, ?_, ?_⟩
  · rw [canonical_run_eq]
    rfl
  · rw [canonical_run_eq, canonState]
    simp
  · rw [canonical_run_eq]
    exact lt_of_lt_of_le (by norm_num) bnd_9.1
  · rw [canonical_run_eq]
    exact lt_of_le_of_lt bnd_9.2 (by norm_num)
  · rw [Circuit.I, canonical_run_eq, canonState]
    dsimp only
    have hE1 : ((22123742936082014241453943120826681 : ℝ) / 5000000000000000000000000) ≤ Real.exp (xseq 9 / (Circuit.n * Circuit.Vt)) :=
      le_trans expLB_9 (exp_arg_mono bnd_9.1)
    have hE2 : Real.exp (xseq 9 / (Circuit.n * Circuit.Vt)) ≤ ((8849497174433136820462040478007861 : ℝ) / 2000000000000000000000000) :=
      le_trans (exp_arg_mono bnd_9.2) expUB_9
    rw [Circuit.Vs, Circuit.Is, Circuit.R, abs_lt]
    constructor
    · linarith [bnd_9.1, bnd_9.2]
    · linarith [bnd_9.1, bnd_9.2]

/-- C9: in the canonical run, once an iteration's delta has dropped below
`1e-3`, every subsequent iteration's delta is strictly smaller than the
preceding one. -/
theorem deltas_shrink_monotonically (j k : ℕ) (_hjk : j ≤ k)
    (hk : k + 1 < Circuit.run.results.length)
    (_hsmall : (recAt Circuit.run j).change < 1e-3) :
    (recAt Circuit.run (k + 1)).change < (recAt Circuit.run k).change := by
  have hk8 : k < 8 := by
    rw [canonical_run_eq, canonState] at hk
    simp at hk
    omega
  rw [canonical_run_eq]
  interval_cases k
  · rw [reclem_1, reclem_0, dabs_1, dabs_0]
    exact lt_of_le_of_lt dlem_1.2 (lt_of_lt_of_le (by norm_num) dlem_0.1)
  · rw [reclem_2, reclem_1, dabs_2, dabs_1]
    exact lt_of_le_of_lt dlem_2.2 (lt_of_lt_of_le (by norm_num) dlem_1.1)
  · rw [reclem_3, reclem_2, dabs_3, dabs_2]
    exact lt_of_le_of_lt dlem_3.2 (lt_of_lt_of_le (by norm_num) dlem_2.1)
  · rw [reclem_4, reclem_3, dabs_4, dabs_3]
    exact lt_of_le_of_lt dlem_4.2 (lt_of_lt_of_le (by norm_num) dlem_3.1)
  · rw [reclem_5, reclem_4, dabs_5, dabs_4]
    exact lt_of_le_of_lt dlem_5.2 (lt_of_lt_of_le (by norm_num) dlem_4.1)
  · rw [reclem_6, reclem_5, dabs_6, dabs_5]
    exact lt_of_le_of_lt dlem_6.2 (lt_of_lt_of_le (by norm_num) dlem_5.1)
  · rw [reclem_7, reclem_6, dabs_7, dabs_6]
    exact lt_of_le_of_lt dlem_7.2 (lt_of_lt_of_le (by norm_num) dlem_6.1)
  · rw [reclem_8, reclem_7, dabs_8, dabs_7]
    exact lt_of_le_of_lt dlem_8.2 (lt_of_lt_of_le (by norm_num) dlem_7.1)

/-- Witness for C9: at the canonical run's seventh row the delta is below
`1e-3` and the following delta is strictly smaller. -/
theorem deltas_shrink_monotonically_witness :
    (recAt Circuit.run 7).change < 1e-3 ∧
    (recAt Circuit.run 8).change < (recAt Circuit.run 7).change := by
  have hsmall : (recAt Circuit.run 7).change < 1e-3 := by
    rw [canonical_run_eq, reclem_7, dabs_7]
    exact lt_of_le_of_lt dlem_7.2 (by norm_num)
  have hk : 7 + 1 < Circuit.run.results.length := by
    rw [canonical_run_eq, canonState]
    simp
  exact ⟨hsmall, deltas_shrink_monotonically 7 7 le_rfl hk hsmall⟩

end NewtonDiode
